import Mathlib

/-! # EMS web client (`app.js`)

A shallow embedding of the browser client: the session store, the HTTP wrapper
`apiFetch`, the form handlers and the page bootstrap, followed by the
properties the specification states about them.

Modelling conventions.

* A JavaScript value is a `JsVal`. A number inside a value is a `JsNum`: an
  integer of magnitude at most `2^53`, the range in which every integer is a
  number, is printed in decimal digits, and `+ 1` is exact except at `2^53`
  itself. Fractions, larger numbers, `NaN` and the infinities are outside the
  model. The pagination cursor is an `Int` of its own.
* A JavaScript string is a Lean `String` (a sequence of Unicode scalar values).
* JSON text is carried together with its value: a response holds its `text`
  and what `JSON.parse(text)` gives, a request holds the value that
  `JSON.stringify` serialises.
* The page is a `World`: local storage, `location.href`, the `.value` of every
  form control by selector, the status element `#toast`, the tables, the
  pagination cursor and the log of requests handed to `fetch`. The HTML pages
  are not modelled; every element a handler dereferences without a guard is
  taken to be present. A property read on `null` or `undefined` is the engine
  TypeError `Thrown.typeError`.
* The backend is an oracle `Net`: from the requests sent so far and the
  request at hand to a response, or to the rejection of `fetch`.
* A handler runs to completion: each `await` is resolved before the next
  statement, handlers do not interleave.
-/

namespace Ems

/-! ## JavaScript values -/

/-- A number of the model: an integer between `-2^53` and `2^53`. Every such
integer is a JavaScript number and its ToString is its decimal notation. -/
structure JsNum where
  val : Int
  exact : -9007199254740992 ≤ val ∧ val ≤ 9007199254740992

/-- The number of a count (an array or string length, a literal), capped at
`2^53`; an array has fewer than `2^32` elements and a string fewer than `2^53`
code units. -/
def JsNum.ofNat (n : Nat) : JsNum :=
  if h : n ≤ 9007199254740992 then ⟨n, by omega⟩
  else ⟨9007199254740992, by decide⟩

/-- The sum `n + 1` in double arithmetic: exact below `2^53`, while
`2^53 + 1` rounds back to `2^53`. -/
def JsNum.succ (n : JsNum) : JsNum :=
  if h : n.val < 9007199254740992 then ⟨n.val + 1, by have := n.exact; omega⟩
  else n

/-- A JavaScript value: what `JSON.parse` can return, and `undefined`. An
object is its list of own properties, keys distinct. -/
inductive JsVal where
  | undefined
  | null
  | bool (b : Bool)
  | num (n : JsNum)
  | str (s : String)
  | arr (xs : List JsVal)
  | obj (fields : List (String × JsVal))

namespace JsVal

/-- ToBoolean: the truthiness tested by `if`, `!`, `&&`, `||` and `?:`. -/
def truthy : JsVal → Bool
  | undefined => false
  | null => false
  | bool b => b
  | num n => decide (n.val ≠ 0)
  | str s => decide (s ≠ "")
  | arr _ => true
  | obj _ => true

/-- Whether the value is `null` or `undefined`. -/
def isNullish : JsVal → Bool
  | undefined => true
  | null => true
  | _ => false

/-- Whether `typeof v === "string"`. -/
def isString : JsVal → Bool
  | str _ => true
  | _ => false

mutual
/-- The text ToString gives, as applied by `String(v)`, by a template literal
and by `new Error(v)`. Whether ToString returns at all is `stringable`. -/
def toStr : JsVal → String
  | undefined => "undefined"
  | null => "null"
  | bool true => "true"
  | bool false => "false"
  | num n => toString n.val
  | str s => s
  | arr xs => joinStr xs
  | obj _ => "[object Object]"
termination_by structural v => v
/-- Array to string: the elements joined by commas, `null` and `undefined`
elements giving the empty string. -/
def joinStr : List JsVal → String
  | [] => ""
  | x :: rest =>
    (match x with
      | undefined => ""
      | null => ""
      | v => toStr v) ++ (match rest with | [] => "" | _ => ",") ++ joinStr rest
termination_by structural xs => xs
end

/-- The operator `a ?? b`. -/
def nullish (a b : JsVal) : JsVal :=
  if a.isNullish then b else a

/-- The operator `a || b`. -/
def orElse (a b : JsVal) : JsVal :=
  if a.truthy then a else b

/-- Own property `k` of a list of properties, `undefined` when absent. -/
def lookup : List (String × JsVal) → String → JsVal
  | [], _ => undefined
  | (k, v) :: rest, key => if k = key then v else lookup rest key

/-- Whether a list of properties has an own property `k`. -/
def hasOwn : List (String × JsVal) → String → Bool
  | [], _ => false
  | (k, _) :: rest, key => decide (k = key) || hasOwn rest key

mutual
/-- Whether ToString of the value returns. An object with an own `toString`
property (never callable in parsed JSON) makes it throw a TypeError, directly
or as an element of an array; every other value converts. -/
def stringable : JsVal → Bool
  | arr xs => allStringable xs
  | obj fields => !hasOwn fields "toString"
  | _ => true
termination_by structural v => v
/-- Whether joining the elements of an array returns: `null` and `undefined`
elements are skipped, the others converted. -/
def allStringable : List JsVal → Bool
  | [] => true
  | x :: rest =>
    (match x with
      | undefined => true
      | null => true
      | v => stringable v) && allStringable rest
termination_by structural xs => xs
end

/-- Number of UTF-16 code units of a string, its `.length`. -/
def utf16Length (s : String) : Nat :=
  (s.data.map (fun c => if c.toNat < 65536 then 1 else 2)).sum

/-- Property read `v.k` on a value that is not `null` or `undefined`: an own
property of an object, `length` of an array or string, otherwise `undefined`.
The keys app.js reads are fixed names, none of them inherited from a
prototype. -/
def prop (v : JsVal) (k : String) : JsVal :=
  match v with
  | obj fields => lookup fields k
  | arr xs => if k = "length" then num (JsNum.ofNat xs.length) else undefined
  | str s => if k = "length" then num (JsNum.ofNat (utf16Length s)) else undefined
  | _ => undefined

end JsVal

open JsVal

/-- What a `throw` or a rejected promise carries. -/
inductive Thrown where
  /-- The `new Error(msg)` thrown by `apiFetch`. -/
  | error (message : String)
  /-- The rejection of `fetch` itself (no response). -/
  | network (message : String)
  /-- A TypeError raised by the engine (property read on `null`, call of a
  non-function). -/
  | typeError

/-- The `message` of the thrown value; the text of an engine TypeError is
engine-defined and stands as a fixed string. -/
def Thrown.message : Thrown → String
  | .error m => m
  | .network m => m
  | .typeError => "TypeError"

/-- Optional chaining `v?.k`. -/
def JsVal.optGet (v : JsVal) (k : String) : JsVal :=
  if v.isNullish then undefined else v.prop k

/-! ## Strings -/

/-- The apostrophe, U+0027. -/
def apos : Char := Char.ofNat 39

/-- WhiteSpace and LineTerminator code points of ECMAScript, the characters
`String.prototype.trim` strips. -/
def isJsSpace (c : Char) : Bool :=
  let n := c.toNat
  n = 9 || n = 10 || n = 11 || n = 12 || n = 13 || n = 32 || n = 160 ||
  n = 5760 || (8192 ≤ n && n ≤ 8202) || n = 8232 || n = 8233 || n = 8239 ||
  n = 8287 || n = 12288 || n = 65279

/-- The method `s.trim()`. -/
def jsTrim (s : String) : String :=
  ⟨((s.data.dropWhile isJsSpace).reverse.dropWhile isJsSpace).reverse⟩

/-- Whether `pat` occurs in `s` at some position (on characters). -/
def includesChars : List Char → List Char → Bool
  | [], pat => pat.isEmpty
  | c :: cs, pat => pat.isPrefixOf (c :: cs) || includesChars cs pat

/-- The method `s.includes(pat)`. -/
def includes (s pat : String) : Bool :=
  includesChars s.data pat.data

/-- The replacement of one character by `esc`: the object literal indexed by
the matched character. -/
def escChar (c : Char) : List Char :=
  if c = '&' then "&amp;".data
  else if c = '<' then "&lt;".data
  else if c = '>' then "&gt;".data
  else if c = '"' then "&quot;".data
  else if c = apos then "&#39;".data
  else [c]

/-- The global replace of `/[&<>"']/g` over the characters of a string. -/
def escChars : List Char → List Char
  | [] => []
  | c :: cs => escChar c ++ escChars cs

/-- The function `esc(s)`: `String(s ?? '')` with the five characters
replaced by their entities. -/
def esc (s : JsVal) : String :=
  ⟨escChars (JsVal.nullish s (.str "")).toStr.data⟩

/-- The five entities `esc` produces. -/
def entities : List (List Char) :=
  ["&amp;".data, "&lt;".data, "&gt;".data, "&quot;".data, "&#39;".data]

/-- The rest of `l` after the leading characters `e`, `none` when `l` does
not start with `e`. -/
def stripChars : List Char → List Char → Option (List Char)
  | [], l => some l
  | _ :: _, [] => none
  | e :: es, c :: cs => if e = c then stripChars es cs else none

/-- Spec-side inverse of `esc` with a step budget: one left-to-right pass that
replaces each of the five entities by its character. -/
def unescAux : Nat → List Char → List Char
  | 0, l => l
  | _ + 1, [] => []
  | n + 1, c :: cs =>
    match stripChars "&amp;".data (c :: cs) with
    | some rest => '&' :: unescAux n rest
    | none =>
    match stripChars "&lt;".data (c :: cs) with
    | some rest => '<' :: unescAux n rest
    | none =>
    match stripChars "&gt;".data (c :: cs) with
    | some rest => '>' :: unescAux n rest
    | none =>
    match stripChars "&quot;".data (c :: cs) with
    | some rest => '"' :: unescAux n rest
    | none =>
    match stripChars "&#39;".data (c :: cs) with
    | some rest => apos :: unescAux n rest
    | none => c :: unescAux n cs

/-- Spec-side inverse of `esc` on characters; a pass takes at most one step
for each character. -/
def unescChars (l : List Char) : List Char := unescAux l.length l

/-- Spec-side inverse of `esc` on strings. -/
def unesc (s : String) : String := ⟨unescChars s.data⟩

/-! ## Requests, responses and the page -/

/-- A request target: the path and the search parameters, whose
serialisation `url.pathname + url.search` is the string handed to `fetch`. -/
structure Url where
  path : String
  params : List (String × String) := []

/-- Assignment `o[k] = v` on a plain object of strings (also
`searchParams.set(k, v)` on parameters with distinct names): the first entry
named `k` gets the value, a missing one is appended. -/
def setKey : List (String × String) → String → String → List (String × String)
  | [], k, v => [(k, v)]
  | (k0, v0) :: rest, k, v =>
    if k0 = k then (k0, v) :: rest else (k0, v0) :: setKey rest k v

/-- Read `o[k]` on a plain object of strings. -/
def getKey : List (String × String) → String → Option String
  | [], _ => none
  | (k0, v0) :: rest, k => if k0 = k then some v0 else getKey rest k

/-- The call `url.searchParams.set(k, v)`. -/
def Url.set (u : Url) (k v : String) : Url :=
  { u with params := setKey u.params k v }

/-- The second argument of `apiFetch`. -/
structure Opts where
  method : Option String := none
  headers : Option (List (String × String)) := none
  json : Option JsVal := none
  body : Option JsVal := none

/-- What `fetch` is called with: target, method, the headers object and the
body (the value whose JSON text is sent). -/
structure Request where
  url : Url
  method : String
  headers : List (String × String)
  body : Option JsVal

/-- A response: status, body text, and `JSON.parse(text)` (`none` when the
text is not JSON and the parse throws). -/
structure Response where
  status : Nat
  text : String
  json : Option JsVal

/-- The flag `res.ok`: a status from 200 to 299. -/
def Response.ok (r : Response) : Bool :=
  200 ≤ r.status && r.status ≤ 299

/-- The backend and the network: the requests sent before and the request at
hand give a response, or the message `fetch` rejects with. -/
abbrev Net := List Request → Request → Except String Response

/-- The status element `#toast`. -/
structure Toast where
  className : String
  textContent : String

/-- A button of a table row. -/
structure Button where
  cls : String
  act : String
  /-- Carries the attribute `data-hr-only`. -/
  hrOnly : Bool
  /-- The inline `style.display`, empty when unset. -/
  display : String
  label : String

/-- A table row `tr`. -/
structure Row where
  /-- The text assigned to `tr.innerHTML`, character for character. -/
  html : String
  /-- The buttons the row template declares, as role gating sees them: exact
  when the interpolated id holds no `<` and no double quote, the characters that
  would change the markup around it. -/
  buttons : List Button := []

/-- An element of the static dashboard page, as far as tabs and role gating
read or write it. -/
structure Elem where
  /-- The attribute `data-tab`. -/
  tab : Option String := none
  /-- The attribute `data-pane`. -/
  pane : Option String := none
  /-- Carries the attribute `data-hr-only`. -/
  hrOnly : Bool := false
  /-- The inline `style.display`, empty when unset. -/
  display : String := ""
  /-- Whether the class list holds `active`. -/
  active : Bool := false

/-- The browser state app.js reads and writes. -/
structure World where
  /-- The local storage keys `ems_token`, `ems_username`, `ems_role`. -/
  ems_token : Option String := none
  ems_username : Option String := none
  ems_role : Option String := none
  /-- The field `location.href`. -/
  href : String := ""
  /-- The `.value` of the form control a selector names. -/
  value : String → String := fun _ => ""
  /-- The `.disabled` flag of the button a selector names. -/
  disabled : String → Bool := fun _ => false
  /-- The element `#toast`, `none` when the page has none. -/
  toast : Option Toast := some ⟨"", ""⟩
  /-- Text of `#userPill`, `none` when the page has none. -/
  userPill : Option String := none
  /-- Whether `#btnLogin`, `#btnRegister`, `#dashboardRoot` are in the page. -/
  hasLogin : Bool := false
  hasRegister : Bool := false
  hasDashboard : Bool := false
  /-- The elements of the static page with a tab, pane or HR-only attribute. -/
  elems : List Elem := []
  /-- The globals `empPage` and `empSize`. -/
  empPage : Int := 0
  empSize : Int := 10
  /-- Rows of `#emp_tbody`, `#att_tbody`, `#lv_tbody`, `#sal_tbody`. -/
  emp_tbody : List Row := []
  att_tbody : List Row := []
  lv_tbody : List Row := []
  sal_tbody : List Row := []
  /-- Text of `#emp_page`. -/
  emp_page : String := ""
  /-- Every request handed to `fetch`, oldest first. -/
  requests : List Request := []

/-- Assignment `qs(sel).value = v`. -/
def World.setValue (w : World) (sel v : String) : World :=
  { w with value := fun s => if s = sel then v else w.value s }

/-- Assignment `qs(sel).disabled = b`. -/
def World.setDisabled (w : World) (sel : String) (b : Bool) : World :=
  { w with disabled := fun s => if s = sel then b else w.disabled s }

/-! ## Endpoints and session store -/

namespace API
def login : String := "/api/auth/login"
def register : String := "/api/auth/register"
def employees : String := "/api/employees"
def attendanceMark : String := "/api/attendance/mark"
def attendanceMonthly : String := "/api/attendance/monthly"
def leavesApply : String := "/api/leaves/apply"
def leavesDecide : String := "/api/leaves/decide"
def leaves : String := "/api/leaves"
def salariesSet : String := "/api/salaries/set"
def salariesForEmployee (id : String) : String := "/api/salaries/employee/" ++ id
end API

/-- The getter pattern `localStorage.getItem(k) || ''`. -/
def getItemOrEmpty : Option String → String
  | some v => if v ≠ "" then v else ""
  | none => ""

/-- The setter pattern `localStorage.setItem(k, v || '')`: the stored string. -/
def setItemValue (v : JsVal) : String :=
  (JsVal.orElse v (.str "")).toStr

namespace store
/-- Getter `store.token`. -/
def token (w : World) : String := getItemOrEmpty w.ems_token
/-- Getter `store.username`. -/
def username (w : World) : String := getItemOrEmpty w.ems_username
/-- Getter `store.role`. -/
def role (w : World) : String := getItemOrEmpty w.ems_role
/-- Setter `store.token = v`. -/
def setToken (v : JsVal) (w : World) : World := { w with ems_token := some (setItemValue v) }
/-- Setter `store.username = v`. -/
def setUsername (v : JsVal) (w : World) : World :=
  { w with ems_username := some (setItemValue v) }
/-- Setter `store.role = v`. -/
def setRole (v : JsVal) (w : World) : World := { w with ems_role := some (setItemValue v) }
/-- The method `store.clear()`. -/
def clear (w : World) : World :=
  { w with ems_token := none, ems_username := none, ems_role := none }
end store

/-- The function `statusBadge(status)` for a status whose conversion returns:
the colour class looked up in the literal map, `map[status] || ''`. A status
naming a member of `Object.prototype` is outside the model. -/
def statusBadge (status : JsVal) : String :=
  let key := status.toStr
  let colour :=
    if key = "APPROVED" then "green"
    else if key = "REJECTED" then "red"
    else if key = "PENDING" then "orange"
    else if key = "ACTIVE" then "green"
    else if key = "INACTIVE" then "gray"
    else ""
  "<span class=\"badge " ++ colour ++ "\">" ++ status.toStr ++ "</span>"

/-- The function `toast(msg, type)`: without a `#toast` element nothing
happens, otherwise its class and text are replaced. -/
def toast (msg : String) (type : String) (w : World) : World :=
  match w.toast with
  | none => w
  | some _ => { w with toast := some ⟨"toast " ++ (if type ≠ "" then type else ""), msg⟩ }

/-! ## HTTP wrapper -/

/-- The value `data` of `apiFetch`: `null` for an empty body, the parsed JSON,
or the text itself when the parse throws. -/
def responseData (res : Response) : JsVal :=
  if res.text ≠ "" then
    match res.json with
    | some v => v
    | none => .str res.text
  else .null

/-- The message `apiFetch` raises for a failed response. -/
def errorMessage (res : Response) : JsVal :=
  let data := responseData res
  if data.truthy && (data.prop "message").truthy then data.prop "message"
  else if data.isString then data
  else .str ("HTTP " ++ toString res.status)

/-- The request `apiFetch(url, opts)` hands to `fetch`. -/
def buildRequest (url : Url) (opts : Opts) (w : World) : Request :=
  let headers := match opts.headers with
    | some h => h
    | none => []
  let headers :=
    if store.token w ≠ "" then setKey headers "Authorization" ("Bearer " ++ store.token w)
    else headers
  let jsonOn := match opts.json with
    | some j => j.truthy
    | none => false
  { url := url
    method := opts.method.getD "GET"
    headers := if jsonOn then setKey headers "Content-Type" "application/json" else headers
    body := if jsonOn then opts.json else opts.body }

/-- The function `apiFetch(url, opts)`: the outcome (the parsed body, or what
is thrown) and the page with the request logged. -/
def apiFetch (net : Net) (url : Url) (opts : Opts) (w : World) :
    Except Thrown JsVal × World :=
  let req := buildRequest url opts w
  let w1 := { w with requests := w.requests ++ [req] }
  match net w.requests req with
  | .error m => (.error (.network m), w1)
  | .ok res =>
    if !res.ok then (.error (.error (errorMessage res).toStr), w1)
    else (.ok (responseData res), w1)

/-! ## Rendering helpers -/

/-- The loop `xs.forEach(x => tbody.appendChild(row x))`: rows are appended in
order, up to the first element on which building the row throws. -/
def appendRows (row : JsVal → Except Thrown Row) :
    List JsVal → List Row → Except Thrown Unit × List Row
  | [], acc => (.ok (), acc)
  | x :: xs, acc =>
    match row x with
    | .error e => (.error e, acc)
    | .ok r => appendRows row xs (acc ++ [r])

/-- The receiver of `(list || []).forEach`: the elements of an array, nothing
for a falsy value, a TypeError for any other value (it has no `forEach`). -/
def forEachTarget (list : JsVal) : Except Thrown (List JsVal) :=
  match list with
  | .arr xs => .ok xs
  | v => if v.truthy then .error .typeError else .ok []

/-- The statements `tbody.innerHTML = ''; (list || []).forEach(...)`: the
outcome and the rows of the table afterwards. -/
def renderList (row : JsVal → Except Thrown Row) (list : JsVal) :
    Except Thrown Unit × List Row :=
  match forEachTarget list with
  | .error e => (.error e, [])
  | .ok xs => appendRows row xs []

/-- The expression `e.message || fallback` of a catch block. -/
def messageOr (e : Thrown) (fallback : String) : String :=
  if e.message ≠ "" then e.message else fallback

/-- The expression `(v ?? 0) + 1` for a value whose conversion returns: the
double sum for a number, a boolean, `null` and `undefined`, string
concatenation for a string, an array or an object. -/
def orZeroPlusOne : JsVal → JsVal
  | .undefined => .num (JsNum.ofNat 1)
  | .null => .num (JsNum.ofNat 1)
  | .num n => .num n.succ
  | .bool b => .num (JsNum.ofNat (if b then 2 else 1))
  | .str s => .str (s ++ "1")
  | v => .str (v.toStr ++ "1")

/-! ## Login page -/

/-- The handler `handleLogin()`. -/
def handleLogin (net : Net) (w : World) : World :=
  let u := jsTrim (w.value "#username")
  let p := w.value "#password"
  if u = "" ∨ p = "" then toast "Username & password required" "err" w
  else
    let w1 := toast "Logging in..." "" (w.setDisabled "#btnLogin" true)
    let payload := JsVal.obj [("username", .str u), ("password", .str p)]
    let w3 :=
      match apiFetch net { path := API.login } { method := some "POST", json := some payload } w1 with
      | (.error e, w2) => toast (messageOr e "Login failed") "err" w2
      | (.ok data, w2) =>
        if data.isNullish then toast (messageOr .typeError "Login failed") "err" w2
        else
          let w2 := store.setToken (data.prop "token") w2
          let w2 := store.setUsername (data.prop "username") w2
          let w2 := store.setRole (data.prop "role") w2
          { w2 with href := "/app/dashboard.html" }
    w3.setDisabled "#btnLogin" false

/-- The handler `handleRegister()`. -/
def handleRegister (net : Net) (w : World) : World :=
  let u := jsTrim (w.value "#r_username")
  let p := w.value "#r_password"
  let role := w.value "#r_role"
  if u = "" ∨ p = "" then toast "Username & password required" "err" w
  else
    let w1 := toast "Registering..." "" (w.setDisabled "#btnRegister" true)
    let payload := JsVal.obj [("username", .str u), ("password", .str p), ("role", .str role)]
    let w3 :=
      match apiFetch net { path := API.register }
          { method := some "POST", json := some payload } w1 with
      | (.error e, w2) => toast (messageOr e "Register failed") "err" w2
      | (.ok data, w2) =>
        let w2 := toast (if data.isString then data.toStr else "Registered") "ok" w2
        w2.setValue "#r_password" ""
    w3.setDisabled "#btnRegister" false

/-! ## Dashboard: session and role -/

/-- The function `requireAuth()`: the answer and the page, redirected to the
login page when no token is stored. -/
def requireAuth (w : World) : Bool × World :=
  if store.token w = "" then (false, { w with href := "/app/login.html" })
  else (true, w)

/-- The function `canHR()`. -/
def canHR (w : World) : Bool :=
  includes (store.role w) "ADMIN" || includes (store.role w) "HR"

/-- The function `setHeader()`. -/
def setHeader (w : World) : World :=
  match w.userPill with
  | none => w
  | some _ =>
    let name := if store.username w ≠ "" then store.username w else "User"
    { w with userPill := some (name ++ " • " ++ store.role w) }

/-! ## Employees -/

/-- The row `loadEmployees` builds for one element of `page.content`: a
TypeError when the element is `null` or `undefined` or when converting one of
the interpolated values throws, otherwise the template filled in. -/
def employeeRow (e : JsVal) : Except Thrown Row :=
  if e.isNullish then .error .typeError
  else
    let id := e.prop "id"
    let id0 := JsVal.nullish id (.str "")
    let fullName := JsVal.nullish (e.prop "fullName") (.str "")
    let department := JsVal.orElse (e.prop "department") (.str "")
    let email := JsVal.orElse (e.prop "email") (.str "")
    let phone := JsVal.orElse (e.prop "phone") (.str "")
    let joinDate := JsVal.orElse (e.prop "joinDate") (.str "")
    if [id0, fullName, department, email, phone, joinDate, id].all JsVal.stringable then
      .ok
        { html :=
          "\n\t    <td>" ++ id0.toStr ++ "</td>\n\t    <td>" ++ esc fullName ++
            "</td>\n\t    <td>" ++ esc department ++ "</td>\n\t    <td>" ++ esc email ++
            "</td>\n\t    <td>" ++ esc phone ++ "</td>\n\t    <td>" ++ esc joinDate ++
            "</td>\n\t    <td>\n\t      <button class=\"btn\" data-act=\"edit\" data-id=\"" ++
            id.toStr ++
            "\">Edit</button>\n\t      <button class=\"btn danger\" data-act=\"del\" data-id=\"" ++
            id.toStr ++
            "\">Deactivate</button>\n\t      <button class=\"btn danger\" data-act=\"purge\" data-id=\"" ++
            id.toStr ++ "\" data-hr-only>Purge</button>\n\t    </td>\n\t  "
          buttons :=
            [ { cls := "btn", act := "edit", hrOnly := false, display := "", label := "Edit" },
              { cls := "btn danger", act := "del", hrOnly := false, display := "",
                label := "Deactivate" },
              { cls := "btn danger", act := "purge", hrOnly := true, display := "",
                label := "Purge" } ] }
    else .error .typeError

/-- The text `loadEmployees` writes into `#emp_page`, or the TypeError of a
conversion that throws. -/
def pageIndicator (page : JsVal) (rows : List JsVal) : Except Thrown String :=
  let number := page.prop "number"
  let totalPages := JsVal.orElse (page.prop "totalPages") (.num (JsNum.ofNat 1))
  let total := JsVal.nullish (page.prop "totalElements") (.num (JsNum.ofNat rows.length))
  if [number, totalPages, total].all JsVal.stringable then
    .ok ("Page " ++ (orZeroPlusOne number).toStr ++ " of " ++ totalPages.toStr ++ " • Total " ++
      total.toStr)
  else .error .typeError

/-- The request target `loadEmployees` builds. -/
def employeesUrl (w : World) : Url :=
  let search := jsTrim (w.value "#emp_search")
  let url : Url := { path := API.employees }
  let url := if search ≠ "" then url.set "search" search else url
  let url := url.set "page" (toString w.empPage)
  url.set "size" (toString w.empSize)

/-- The function `loadEmployees()`; an error of `apiFetch` or of the
rendering loop is not caught here. -/
def loadEmployees (net : Net) (w : World) : Except Thrown Unit × World :=
  match apiFetch net (employeesUrl w) { method := some "GET" } w with
  | (.error e, w1) => (.error e, w1)
  | (.ok page, w1) =>
    if !page.truthy || !(page.prop "content").truthy then
      (.ok (), toast "Employee data load failed (auth / API issue)" "err" w1)
    else
      match page.prop "content" with
      | .arr rows =>
        match appendRows employeeRow rows [] with
        | (.error e, tb) => (.error e, { w1 with emp_tbody := tb })
        | (.ok _, tb) =>
          match pageIndicator page rows with
          | .error e => (.error e, { w1 with emp_tbody := tb })
          | .ok text => (.ok (), { w1 with emp_tbody := tb, emp_page := text })
      | _ => (.error .typeError, { w1 with emp_tbody := [] })

/-- The function `clearEmpForm()`. -/
def clearEmpForm (w : World) : World :=
  ["#emp_id", "#emp_name", "#emp_dept", "#emp_email", "#emp_phone", "#emp_join"].foldl
    (fun acc sel => acc.setValue sel "") w

/-- The payload `saveEmployee` reads from the form. -/
def employeePayload (w : World) : JsVal :=
  .obj
    [ ("fullName", .str (jsTrim (w.value "#emp_name"))),
      ("department", .str (jsTrim (w.value "#emp_dept"))),
      ("email", .str (jsTrim (w.value "#emp_email"))),
      ("phone", .str (jsTrim (w.value "#emp_phone"))),
      ("joinDate", .str (w.value "#emp_join")) ]

/-- The handler `saveEmployee()`. -/
def saveEmployee (net : Net) (w : World) : World :=
  let id := jsTrim (w.value "#emp_id")
  let payload := employeePayload w
  if jsTrim (w.value "#emp_name") = "" then toast "Name required" "err" w
  else if jsTrim (w.value "#emp_email") = "" then toast "Email required" "err" w
  else
    let written :=
      if id ≠ "" then
        apiFetch net { path := "/api/employees/" ++ id }
          { method := some "PUT", json := some payload } w
      else
        apiFetch net { path := "/api/employees" }
          { method := some "POST", json := some payload } w
    match written with
    | (.error e, w1) => toast e.message "err" w1
    | (.ok _, w1) =>
      let w2 := toast (if id ≠ "" then "Employee updated" else "Employee created") "ok" w1
      match loadEmployees net (clearEmpForm w2) with
      | (.error e, w3) => toast e.message "err" w3
      | (.ok _, w3) => w3

/-! ## Attendance -/

/-- The handler `markAttendance()`. -/
def markAttendance (net : Net) (w : World) : World :=
  let employeeId := jsTrim (w.value "#att_empId")
  let date := w.value "#att_date"
  let status := w.value "#att_status"
  if employeeId = "" ∨ date = "" then toast "EmployeeId & Date required" "err" w
  else
    let url : Url := { path := API.attendanceMark }
    let url := ((url.set "employeeId" employeeId).set "date" date).set "status" status
    match apiFetch net url { method := some "POST" } w with
    | (.error e, w1) => toast e.message "err" w1
    | (.ok _, w1) => toast "Attendance marked" "ok" w1

/-- The row `loadMonthlyAttendance` builds for one record, reading either
naming of the date, status and employee fields. -/
def attendanceRow (a : JsVal) : Except Thrown Row :=
  if a.isNullish then .error .typeError
  else
    let id0 := JsVal.nullish (a.prop "id") (.str "")
    let date := JsVal.orElse (JsVal.orElse (a.prop "attDate") (a.prop "date")) (.str "")
    let status := JsVal.orElse (JsVal.orElse (a.prop "status") (a.prop "attStatus")) (.str "")
    let employeeId := JsVal.nullish
      (JsVal.nullish ((a.prop "employee").optGet "id") (a.prop "employeeId")) (.str "")
    if [id0, date, status, employeeId].all JsVal.stringable then
      .ok
        { html :=
          "\n\t\t\t  <td>" ++ id0.toStr ++ "</td>\n\t\t\t  <td>" ++ esc date ++
            "</td>\n\t\t\t  <td>" ++ esc status ++ "</td>\n\t\t\t  <td>" ++ employeeId.toStr ++
            "</td>\n\t\t\t" }
    else .error .typeError

/-- The handler `loadMonthlyAttendance()`. -/
def loadMonthlyAttendance (net : Net) (w : World) : World :=
  let employeeId := jsTrim (w.value "#att_rep_empId")
  let dateFrom := w.value "#att_from"
  let dateTo := w.value "#att_to"
  if employeeId = "" ∨ dateFrom = "" ∨ dateTo = "" then
    toast "EmployeeId, From, To required" "err" w
  else
    let url : Url := { path := API.attendanceMonthly }
    let url := ((url.set "employeeId" employeeId).set "from" dateFrom).set "to" dateTo
    match apiFetch net url { method := some "GET" } w with
    | (.error e, w1) => toast e.message "err" w1
    | (.ok list, w1) =>
      match renderList attendanceRow list with
      | (.error e, tb) => toast e.message "err" { w1 with att_tbody := tb }
      | (.ok _, tb) => toast "Attendance loaded" "ok" { w1 with att_tbody := tb }

/-! ## Leaves -/

/-- The row `loadLeaves` builds for one leave request, its status as a badge. -/
def leaveRow (l : JsVal) : Except Thrown Row :=
  if l.isNullish then .error .typeError
  else
    let id0 := JsVal.nullish (l.prop "id") (.str "")
    let employeeId := JsVal.nullish ((l.prop "employee").optGet "id") (.str "")
    let fromDate := JsVal.orElse (l.prop "fromDate") (.str "")
    let toDate := JsVal.orElse (l.prop "toDate") (.str "")
    let leaveStatus := l.prop "leaveStatus"
    let reason := JsVal.orElse (l.prop "reason") (.str "")
    if [id0, employeeId, fromDate, toDate, leaveStatus, reason].all JsVal.stringable then
      .ok
        { html :=
          "\n\t    <td>" ++ id0.toStr ++ "</td>\n\t    <td>" ++ employeeId.toStr ++
            "</td>\n\t    <td>" ++ esc fromDate ++ "</td>\n\t    <td>" ++ esc toDate ++
            "</td>\n\t    <td>" ++ statusBadge leaveStatus ++ "</td>\n\t    <td>" ++ esc reason ++
            "</td>\n\t  " }
    else .error .typeError

/-- The row `loadLeavesForEmployee` builds, its status as plain text. -/
def employeeLeaveRow (l : JsVal) : Except Thrown Row :=
  if l.isNullish then .error .typeError
  else
    let id0 := JsVal.nullish (l.prop "id") (.str "")
    let employeeId := JsVal.nullish ((l.prop "employee").optGet "id") (.str "")
    let fromDate := JsVal.orElse (l.prop "fromDate") (.str "")
    let toDate := JsVal.orElse (l.prop "toDate") (.str "")
    let status := JsVal.orElse (l.prop "status") (.str "")
    let reason := JsVal.orElse (l.prop "reason") (.str "")
    if [id0, employeeId, fromDate, toDate, status, reason].all JsVal.stringable then
      .ok
        { html :=
          "\n        <td>" ++ id0.toStr ++ "</td>\n        <td>" ++ employeeId.toStr ++
            "</td>\n        <td>" ++ esc fromDate ++ "</td>\n        <td>" ++ esc toDate ++
            "</td>\n        <td>" ++ esc status ++ "</td>\n        <td>" ++ esc reason ++
            "</td>\n      " }
    else .error .typeError

/-- The function `loadLeaves()`; it catches every error itself. -/
def loadLeaves (net : Net) (w : World) : World :=
  match apiFetch net { path := API.leaves } { method := some "GET" } w with
  | (.error e, w1) => toast e.message "err" w1
  | (.ok list, w1) =>
    match renderList leaveRow list with
    | (.error e, tb) => toast e.message "err" { w1 with lv_tbody := tb }
    | (.ok _, tb) => { w1 with lv_tbody := tb }

/-- The handler `applyLeave()`. -/
def applyLeave (net : Net) (w : World) : World :=
  let employeeId := jsTrim (w.value "#lv_empId")
  let dateFrom := w.value "#lv_from"
  let dateTo := w.value "#lv_to"
  let reason := jsTrim (w.value "#lv_reason")
  if employeeId = "" ∨ dateFrom = "" ∨ dateTo = "" then
    toast "EmployeeId, From, To required" "err" w
  else
    let url : Url := { path := API.leavesApply }
    let url := ((url.set "employeeId" employeeId).set "from" dateFrom).set "to" dateTo
    let url := if reason ≠ "" then url.set "reason" reason else url
    match apiFetch net url { method := some "POST" } w with
    | (.error e, w1) => toast e.message "err" w1
    | (.ok _, w1) => loadLeaves net (toast "Leave applied" "ok" w1)

/-- The handler `decideLeave()`. -/
def decideLeave (net : Net) (w : World) : World :=
  let leaveId := jsTrim (w.value "#lv_id")
  let status := w.value "#lv_status"
  if leaveId = "" then toast "LeaveId required" "err" w
  else
    let url : Url := { path := API.leavesDecide }
    let url := (url.set "leaveId" leaveId).set "status" status
    match apiFetch net url { method := some "POST" } w with
    | (.error e, w1) => toast e.message "err" w1
    | (.ok _, w1) => loadLeaves net (toast "Leave updated" "ok" w1)

/-- The handler `loadLeavesForEmployee()`. -/
def loadLeavesForEmployee (net : Net) (w : World) : World :=
  let employeeId := jsTrim (w.value "#lv_empId")
  if employeeId = "" then toast "EmployeeId required" "err" w
  else
    match apiFetch net { path := "/api/leaves/employee/" ++ employeeId }
        { method := some "GET" } w with
    | (.error e, w1) => toast e.message "err" w1
    | (.ok list, w1) =>
      match renderList employeeLeaveRow list with
      | (.error e, tb) => toast e.message "err" { w1 with lv_tbody := tb }
      | (.ok _, tb) => toast "Leaves loaded (employee)" "ok" { w1 with lv_tbody := tb }

/-! ## Salaries -/

/-- The row `loadSalary` builds for one salary record. -/
def salaryRow (s : JsVal) : Except Thrown Row :=
  if s.isNullish then .error .typeError
  else
    let id0 := JsVal.nullish (s.prop "id") (.str "")
    let employeeId := JsVal.nullish ((s.prop "employee").optGet "id") (.str "")
    let monthYear := JsVal.orElse (s.prop "monthYear") (.str "")
    let basic := JsVal.nullish (s.prop "basic") (.str "")
    let bonus := JsVal.nullish (s.prop "bonus") (.str "")
    let deduction := JsVal.nullish (s.prop "deduction") (.str "")
    let net := JsVal.nullish (s.prop "net") (.str "")
    if [id0, employeeId, monthYear, basic, bonus, deduction, net].all JsVal.stringable then
      .ok
        { html :=
          "\n        <td>" ++ id0.toStr ++ "</td>\n        <td>" ++ employeeId.toStr ++
            "</td>\n        <td>" ++ esc monthYear ++ "</td>\n        <td>" ++ esc basic ++
            "</td>\n        <td>" ++ esc bonus ++ "</td>\n        <td>" ++ esc deduction ++
            "</td>\n        <td>" ++ esc net ++ "</td>\n      " }
    else .error .typeError

/-- The handler `loadSalary()`; it catches every error itself. -/
def loadSalary (net : Net) (w : World) : World :=
  let employeeId := jsTrim (w.value "#sal_empId")
  if employeeId = "" then toast "EmployeeId required to load salary" "err" w
  else
    match apiFetch net { path := API.salariesForEmployee employeeId }
        { method := some "GET" } w with
    | (.error e, w1) => toast (messageOr e "Salary load failed") "err" w1
    | (.ok list, w1) =>
      match renderList salaryRow list with
      | (.error e, tb) =>
        toast (messageOr e "Salary load failed") "err" { w1 with sal_tbody := tb }
      | (.ok _, tb) => toast "Salary loaded" "ok" { w1 with sal_tbody := tb }

/-- The request target `setSalary` and `generateSalaryAuto` build on `path`. -/
def salaryUrl (path : String) (w : World) : Url :=
  let employeeId := jsTrim (w.value "#sal_empId")
  let monthYear := jsTrim (w.value "#sal_month")
  let basic := jsTrim (w.value "#sal_basic")
  let bonus := jsTrim (w.value "#sal_bonus")
  let deduction := jsTrim (w.value "#sal_d")
  let url : Url := { path := path }
  let url := ((url.set "employeeId" employeeId).set "monthYear" monthYear).set "basic" basic
  let url := if bonus ≠ "" then url.set "bonus" bonus else url
  if deduction ≠ "" then url.set "deduction" deduction else url

/-- The handler `setSalary()`. -/
def setSalary (net : Net) (w : World) : World :=
  let employeeId := jsTrim (w.value "#sal_empId")
  let monthYear := jsTrim (w.value "#sal_month")
  let basic := jsTrim (w.value "#sal_basic")
  if employeeId = "" ∨ monthYear = "" ∨ basic = "" then
    toast "EmployeeId, Month(YYYY-MM), Basic required" "err" w
  else
    match apiFetch net (salaryUrl API.salariesSet w) { method := some "POST" } w with
    | (.error e, w1) => toast (messageOr e "Salary save failed") "err" w1
    | (.ok _, w1) => loadSalary net (toast "Salary saved" "ok" w1)

/-- The handler `generateSalaryAuto()`. -/
def generateSalaryAuto (net : Net) (w : World) : World :=
  let employeeId := jsTrim (w.value "#sal_empId")
  let monthYear := jsTrim (w.value "#sal_month")
  let basic := jsTrim (w.value "#sal_basic")
  if employeeId = "" ∨ monthYear = "" ∨ basic = "" then
    toast "EmployeeId, Month & Basic required" "err" w
  else
    match apiFetch net (salaryUrl "/api/salaries/generate" w) { method := some "POST" } w with
    | (.error e, w1) => toast (messageOr e "Salary generation failed") "err" w1
    | (.ok _, w1) => loadSalary net (toast "Salary generated successfully" "ok" w1)

/-! ## Page bootstrap -/

/-- The inner function `show(name)` of `wireTabs`: the tab named `name` alone
is active, the pane named `name` alone is displayed. -/
def showTab (name : String) (w : World) : World :=
  { w with elems := w.elems.map fun x =>
      let x := match x.tab with
        | some t => { x with active := decide (t = name) }
        | none => x
      match x.pane with
      | some p => { x with display := if p = name then "block" else "none" }
      | none => x }

/-- The function `wireTabs()`: shows the first tab that is not hidden, else
the first tab, else `leaves`. -/
def wireTabs (w : World) : World :=
  let tabs := w.elems.filterMap fun x =>
    match x.tab with
    | some t => some (t, x.display)
    | none => none
  let firstVisible := match tabs.find? (fun t => t.2 ≠ "none") with
    | some t => t.1
    | none => ""
  let first := match tabs with
    | t :: _ => t.1
    | [] => ""
  showTab (if firstVisible ≠ "" then firstVisible else if first ≠ "" then first else "leaves") w

/-- The statement `qsa('[data-hr-only]').forEach(x => x.style.display = 'none')`
over the elements in the document when it runs. -/
def hideHrOnly (w : World) : World :=
  { w with
    elems := w.elems.map fun x => if x.hrOnly then { x with display := "none" } else x
    emp_tbody := w.emp_tbody.map fun r =>
      { r with buttons := r.buttons.map fun b =>
          if b.hrOnly then { b with display := "none" } else b } }

/-- The `DOMContentLoaded` handler, listeners apart: on the dashboard the
session check, header, tabs, role gating and the two first loads. -/
def boot (net : Net) (w : World) : World :=
  if w.hasDashboard then
    match requireAuth w with
    | (false, w1) => w1
    | (true, w1) =>
      let w2 := wireTabs (setHeader w1)
      let w3 := if !canHR w2 then hideHrOnly w2 else w2
      let w4 := match loadEmployees net w3 with
        | (.error e, w) => toast e.message "err" w
        | (.ok _, w) => w
      loadLeaves net w4
  else w

/-- The click listener of `#btnEmpSearch`. -/
def btnEmpSearch (net : Net) (w : World) : World :=
  (loadEmployees net { w with empPage := 0 }).2

/-- The click listener of `#btnEmpPrev`. -/
def btnEmpPrev (net : Net) (w : World) : World :=
  (loadEmployees net { w with empPage := max 0 (w.empPage - 1) }).2

/-- The click listener of `#btnEmpNext`. -/
def btnEmpNext (net : Net) (w : World) : World :=
  (loadEmployees net { w with empPage := w.empPage + 1 }).2

/-- The click listener of `#btnLogout`. -/
def btnLogout (w : World) : World :=
  { store.clear w with href := "/app/login.html" }

/-- The three pagination buttons of the employee list. -/
inductive Click where
  | search
  | prev
  | next
  deriving DecidableEq

/-- One click on a pagination button. -/
def click (net : Net) (c : Click) (w : World) : World :=
  match c with
  | .search => btnEmpSearch net w
  | .prev => btnEmpPrev net w
  | .next => btnEmpNext net w

/-- A sequence of clicks, first to last. -/
def clicks (net : Net) (cs : List Click) (w : World) : World :=
  cs.foldl (fun acc c => click net c acc) w

/-- The elements of the document that carry `data-hr-only`, as their
`style.display`: those of the static page and the buttons of the employee
rows. -/
def hrOnlyDisplays (w : World) : List String :=
  (w.elems.filter (fun x => x.hrOnly)).map (fun x => x.display) ++
    (w.emp_tbody.flatMap fun r => (r.buttons.filter (fun b => b.hrOnly)).map fun b => b.display)

/-! ## The form-submitting operations -/

/-- The operations that read a form and submit it. -/
inductive FormOp where
  | login
  | register
  | save
  | mark
  | monthly
  | apply
  | decide
  | leavesFor
  | salarySet
  | salaryLoad
  | salaryGenerate
  deriving DecidableEq

/-- The handler of each operation. -/
def FormOp.run (net : Net) : FormOp → World → World
  | .login => Ems.handleLogin net
  | .register => Ems.handleRegister net
  | .save => Ems.saveEmployee net
  | .mark => Ems.markAttendance net
  | .monthly => Ems.loadMonthlyAttendance net
  | .apply => Ems.applyLeave net
  | .decide => Ems.decideLeave net
  | .leavesFor => Ems.loadLeavesForEmployee net
  | .salarySet => Ems.setSalary net
  | .salaryLoad => Ems.loadSalary net
  | .salaryGenerate => Ems.generateSalaryAuto net

/-- The form controls of the fields the specification names as required for
each operation. -/
def FormOp.required : FormOp → List String
  | .login => ["#username", "#password"]
  | .register => ["#r_username", "#r_password"]
  | .save => ["#emp_name", "#emp_email"]
  | .mark => ["#att_empId", "#att_date"]
  | .monthly => ["#att_rep_empId", "#att_from", "#att_to"]
  | .apply => ["#lv_empId", "#lv_from", "#lv_to"]
  | .decide => ["#lv_id"]
  | .leavesFor => ["#lv_empId"]
  | .salarySet => ["#sal_empId", "#sal_month", "#sal_basic"]
  | .salaryLoad => ["#sal_empId"]
  | .salaryGenerate => ["#sal_empId", "#sal_month", "#sal_basic"]

/-- The validation messages of each operation. -/
def FormOp.messages : FormOp → List String
  | .login => ["Username & password required"]
  | .register => ["Username & password required"]
  | .save => ["Name required", "Email required"]
  | .mark => ["EmployeeId & Date required"]
  | .monthly => ["EmployeeId, From, To required"]
  | .apply => ["EmployeeId, From, To required"]
  | .decide => ["LeaveId required"]
  | .leavesFor => ["EmployeeId required"]
  | .salarySet => ["EmployeeId, Month(YYYY-MM), Basic required"]
  | .salaryLoad => ["EmployeeId required to load salary"]
  | .salaryGenerate => ["EmployeeId, Month & Basic required"]

/-! ## Example inputs -/


/-- A backend that answers every request with status 400 and the JSON body
whose `message` is the empty string. -/
def netEmptyMessage : Net :=
  fun _ _ => .ok ⟨400, "\x7b\"message\":\"\"\x7d", some (.obj [("message", .str "")])⟩

/-- A backend that answers every request with status 401 and the JSON body
whose `message` is `Invalid credentials`. -/
def netInvalidCredentials : Net :=
  fun _ _ => .ok ⟨401, "\x7b\"message\":\"Invalid credentials\"\x7d",
    some (.obj [("message", .str "Invalid credentials")])⟩

/-- The employee page of the specification's example: one employee, page
number 0, 3 pages, 25 elements. -/
def pageOneEmployee : JsVal :=
  .obj
    [ ("content", .arr [.obj [("id", .num (.ofNat 1)), ("fullName", .str "A")]]),
      ("number", .num (.ofNat 0)), ("totalPages", .num (.ofNat 3)),
      ("totalElements", .num (.ofNat 25)) ]

/-- The response carrying `pageOneEmployee` with status 200. -/
def responseOneEmployee : Response :=
  ⟨200,
    "\x7b\"content\":[\x7b\"id\":1,\"fullName\":\"A\"\x7d],\"number\":0,\"totalPages\":3,\"totalElements\":25\x7d",
    some pageOneEmployee⟩

/-- A backend that answers the leave list with an empty array and every other
request with `responseOneEmployee`. -/
def netDashboard : Net :=
  fun _ req =>
    if req.url.path = "/api/leaves" then .ok ⟨200, "[]", some (.arr [])⟩
    else .ok responseOneEmployee

/-- The successful login response of the specification's example. -/
def responseLogin : Response :=
  ⟨200, "\x7b\"token\":\"t1\",\"username\":\"bob\",\"role\":\"HR\"\x7d",
    some (.obj [("token", .str "t1"), ("username", .str "bob"), ("role", .str "HR")])⟩

/-- A backend that answers every request with `responseLogin`. -/
def netLogin : Net := fun _ _ => .ok responseLogin

/-- A login form holding username `bob` and password `pw`. -/
def loginForm : World :=
  { value := fun s => if s = "#username" then "bob" else if s = "#password" then "pw" else "" }

/-- A login form whose username is one space, with password `pw`. -/
def loginFormBlankUser : World :=
  { value := fun s => if s = "#username" then " " else if s = "#password" then "pw" else "" }

/-- An employee form with name `Ann` and email `ann@x.org`, the id field
holding `idField`. -/
def employeeForm (idField : String) : World :=
  { value := fun s =>
      if s = "#emp_id" then idField
      else if s = "#emp_name" then "Ann"
      else if s = "#emp_email" then "ann@x.org"
      else "" }

/-- An employee form whose name is one space, with email `ann@x.org` and an
empty id. -/
def employeeFormBlankName : World :=
  { value := fun s =>
      if s = "#emp_name" then " "
      else if s = "#emp_email" then "ann@x.org"
      else "" }

/-- An attendance form with the employee id filled in and no date. -/
def attendanceFormNoDate : World :=
  { value := fun s => if s = "#att_empId" then "7" else "" }

/-- The dashboard of a signed-in user with role `EMPLOYEE`, whose static page
holds one HR-only element. -/
def dashboardEmployee : World :=
  { hasDashboard := true
    ems_token := some "t1"
    ems_username := some "bob"
    ems_role := some "EMPLOYEE"
    elems := [{ hrOnly := true }] }

/-- A backend that answers every request with status 200 and a page of two
employees, `1` named `A` and `2` named `B & C`, page number 0 of 3 pages, 25
elements. -/
def netTwoEmployees : Net :=
  fun _ _ => .ok
    ⟨200,
      "\x7b\"content\":[\x7b\"id\":1,\"fullName\":\"A\"\x7d,\x7b\"id\":2,\"fullName\":\"B & C\"\x7d],\"number\":0,\"totalPages\":3,\"totalElements\":25\x7d",
      some (.obj
        [ ("content", .arr
            [ .obj [("id", .num (.ofNat 1)), ("fullName", .str "A")],
              .obj [("id", .num (.ofNat 2)), ("fullName", .str "B & C")] ]),
          ("number", .num (.ofNat 0)), ("totalPages", .num (.ofNat 3)),
          ("totalElements", .num (.ofNat 25)) ])⟩

/-- A backend that answers every request with status 200 and the page of one
employee whose page number is `2^53`, of 3 pages, 25 elements. -/
def netPageNumberLimit : Net :=
  fun _ _ => .ok
    ⟨200,
      "\x7b\"content\":[\x7b\"id\":1,\"fullName\":\"A\"\x7d],\"number\":9007199254740992,\"totalPages\":3,\"totalElements\":25\x7d",
      some (.obj
        [ ("content", .arr [.obj [("id", .num (.ofNat 1)), ("fullName", .str "A")]]),
          ("number", .num (.ofNat 9007199254740992)), ("totalPages", .num (.ofNat 3)),
          ("totalElements", .num (.ofNat 25)) ])⟩


/-! ## Lemmas: strings -/

theorem escChars_append (a b : List Char) : escChars (a ++ b) = escChars a ++ escChars b := by
  induction a with
  | nil => rfl
  | cons c cs ih => simp [escChars, ih]

theorem escChar_clean (c x : Char) (hx : x ∈ escChar c) :
    x ≠ '<' ∧ x ≠ '>' ∧ x ≠ '"' ∧ x ≠ apos := by
  unfold escChar at hx
  split_ifs at hx with h1 h2 h3 h4 h5
  · have : x ∈ ['&', 'a', 'm', 'p', ';'] := hx
    simp only [List.mem_cons, List.mem_singleton, List.not_mem_nil, or_false] at this
    rcases this with h | h | h | h | h <;> subst h <;> decide
  · have : x ∈ ['&', 'l', 't', ';'] := hx
    simp only [List.mem_cons, List.mem_singleton, List.not_mem_nil, or_false] at this
    rcases this with h | h | h | h <;> subst h <;> decide
  · have : x ∈ ['&', 'g', 't', ';'] := hx
    simp only [List.mem_cons, List.mem_singleton, List.not_mem_nil, or_false] at this
    rcases this with h | h | h | h <;> subst h <;> decide
  · have : x ∈ ['&', 'q', 'u', 'o', 't', ';'] := hx
    simp only [List.mem_cons, List.mem_singleton, List.not_mem_nil, or_false] at this
    rcases this with h | h | h | h | h | h <;> subst h <;> decide
  · have : x ∈ ['&', '#', '3', '9', ';'] := hx
    simp only [List.mem_cons, List.mem_singleton, List.not_mem_nil, or_false] at this
    rcases this with h | h | h | h | h <;> subst h <;> decide
  · simp only [List.mem_singleton] at hx
    subst hx
    exact ⟨h2, h3, h4, h5⟩

theorem escChars_clean (l : List Char) (x : Char) (hx : x ∈ escChars l) :
    x ≠ '<' ∧ x ≠ '>' ∧ x ≠ '"' ∧ x ≠ apos := by
  induction l with
  | nil => simp [escChars] at hx
  | cons c cs ih =>
    simp only [escChars, List.mem_append] at hx
    rcases hx with h | h
    · exact escChar_clean c x h
    · exact ih h

theorem stripChars_append (e rest : List Char) : stripChars e (e ++ rest) = some rest := by
  induction e with
  | nil => cases rest <;> rfl
  | cons c cs ih => simp [stripChars, ih]

theorem stripChars_ne (e : Char) (es : List Char) (c : Char) (cs : List Char) (h : e ≠ c) :
    stripChars (e :: es) (c :: cs) = none := by
  simp [stripChars, h]

theorem unescAux_escChar (n : Nat) (c : Char) (rest : List Char) :
    unescAux (n + 1) (escChar c ++ rest) = c :: unescAux n rest := by
  unfold escChar
  split_ifs with h1 h2 h3 h4 h5
  · subst h1; rfl
  · subst h2; rfl
  · subst h3; rfl
  · subst h4; rfl
  · subst h5; rfl
  · show unescAux (n + 1) (c :: rest) = c :: unescAux n rest
    have e1 : stripChars "&amp;".data (c :: rest) = none := stripChars_ne _ _ _ _ (Ne.symm h1)
    have e2 : stripChars "&lt;".data (c :: rest) = none := stripChars_ne _ _ _ _ (Ne.symm h1)
    have e3 : stripChars "&gt;".data (c :: rest) = none := stripChars_ne _ _ _ _ (Ne.symm h1)
    have e4 : stripChars "&quot;".data (c :: rest) = none := stripChars_ne _ _ _ _ (Ne.symm h1)
    have e5 : stripChars "&#39;".data (c :: rest) = none := stripChars_ne _ _ _ _ (Ne.symm h1)
    simp only [unescAux, e1, e2, e3, e4, e5]

theorem escChar_length_pos (c : Char) : 1 ≤ (escChar c).length := by
  unfold escChar
  split_ifs <;> simp

theorem unescAux_escChars (l : List Char) :
    ∀ n, (escChars l).length ≤ n → unescAux n (escChars l) = l := by
  induction l with
  | nil =>
    intro n _
    cases n <;> rfl
  | cons c cs ih =>
    intro n hn
    have hpos := escChar_length_pos c
    simp only [escChars, List.length_append] at hn
    obtain ⟨m, rfl⟩ : ∃ m, n = m + 1 := ⟨n - 1, by omega⟩
    rw [escChars, unescAux_escChar, ih m (by omega)]

theorem unescChars_escChars (l : List Char) : unescChars (escChars l) = l :=
  unescAux_escChars l _ (le_refl _)

theorem escChars_id (l : List Char)
    (h : ∀ c ∈ l, c ≠ '&' ∧ c ≠ '<' ∧ c ≠ '>' ∧ c ≠ '"' ∧ c ≠ apos) : escChars l = l := by
  induction l with
  | nil => rfl
  | cons c cs ih =>
    have hc := h c (List.mem_cons_self _ _)
    have hcs : escChars cs = cs := ih (fun x hx => h x (List.mem_cons_of_mem _ hx))
    simp [escChars, escChar, hc.1, hc.2.1, hc.2.2.1, hc.2.2.2.1, hc.2.2.2.2, hcs]

theorem amp_first (e pre post : List Char) (he : e = pre ++ '&' :: post)
    (hno : '&' ∉ e.tail) : pre = [] := by
  cases pre with
  | nil => rfl
  | cons p ps =>
    exfalso
    apply hno
    rw [he]
    simp

theorem escChar_amp (c : Char) (pre post : List Char) (h : escChar c = pre ++ '&' :: post) :
    pre = [] ∧ escChar c ∈ entities := by
  unfold escChar at h ⊢
  split_ifs at h ⊢ with h1 h2 h3 h4 h5
  · exact ⟨amp_first _ pre post h (by decide), by decide⟩
  · exact ⟨amp_first _ pre post h (by decide), by decide⟩
  · exact ⟨amp_first _ pre post h (by decide), by decide⟩
  · exact ⟨amp_first _ pre post h (by decide), by decide⟩
  · exact ⟨amp_first _ pre post h (by decide), by decide⟩
  · exfalso
    cases pre with
    | nil =>
      simp only [List.nil_append, List.cons.injEq] at h
      exact h1 h.1
    | cons p ps =>
      simp at h

theorem escChars_amp (l : List Char) :
    ∀ pre post, escChars l = pre ++ '&' :: post →
      ∃ e ∈ entities, ∃ rest, '&' :: post = e ++ rest := by
  induction l with
  | nil =>
    intro pre post h
    simp [escChars] at h
  | cons c cs ih =>
    intro pre post h
    rw [escChars, List.append_eq_append_iff] at h
    rcases h with ⟨a, h1, h2⟩ | ⟨a, h1, h2⟩
    · exact ih a post h2
    · cases a with
      | nil =>
        simp only [List.nil_append] at h2
        exact ih [] post (by simpa using h2.symm)
      | cons x xs =>
        have hx : x = '&' := by
          have := congrArg List.head? h2
          simpa using this.symm
        subst hx
        obtain ⟨hpre, hmem⟩ := escChar_amp c pre xs h1
        refine ⟨escChar c, hmem, escChars cs, ?_⟩
        rw [h2, h1, hpre]
        rfl

theorem includes_isPrefixOf (p s : List Char) :
    p.isPrefixOf s = true ↔ ∃ b, s = p ++ b := by
  induction p generalizing s with
  | nil => simp
  | cons x xs ih =>
    cases s with
    | nil => simp [List.isPrefixOf]
    | cons y ys =>
      simp only [List.isPrefixOf, Bool.and_eq_true, beq_iff_eq, ih, List.cons_append,
        List.cons.injEq]
      constructor
      · rintro ⟨rfl, b, rfl⟩
        exact ⟨b, rfl, rfl⟩
      · rintro ⟨b, rfl, rfl⟩
        exact ⟨rfl, b, rfl⟩

theorem includesChars_iff (s p : List Char) :
    includesChars s p = true ↔ ∃ a b, s = a ++ p ++ b := by
  induction s with
  | nil =>
    simp only [includesChars, List.isEmpty_iff]
    constructor
    · rintro rfl
      exact ⟨[], [], rfl⟩
    · rintro ⟨a, b, h⟩
      have := congrArg List.length h
      simp only [List.length_nil, List.length_append] at this
      exact List.length_eq_zero.mp (by omega)
  | cons c cs ih =>
    simp only [includesChars, Bool.or_eq_true, includes_isPrefixOf, ih]
    constructor
    · rintro (⟨b, h⟩ | ⟨a, b, h⟩)
      · exact ⟨[], b, by simpa using h⟩
      · exact ⟨c :: a, b, by simp [h]⟩
    · rintro ⟨a, b, h⟩
      cases a with
      | nil => exact Or.inl ⟨b, by simpa using h⟩
      | cons x xs =>
        simp only [List.cons_append, List.cons.injEq] at h
        exact Or.inr ⟨xs, b, h.2⟩

theorem includes_iff (s p : String) :
    includes s p = true ↔ ∃ a b : String, s = a ++ p ++ b := by
  unfold includes
  rw [includesChars_iff]
  constructor
  · rintro ⟨a, b, h⟩
    refine ⟨⟨a⟩, ⟨b⟩, ?_⟩
    apply String.ext
    simpa using h
  · rintro ⟨a, b, h⟩
    refine ⟨a.data, b.data, ?_⟩
    rw [h]
    simp

theorem getItemOrEmpty_some (r : String) : getItemOrEmpty (some r) = r := by
  show (if r ≠ "" then r else "") = r
  split_ifs with h
  · rfl
  · exact (not_not.mp h).symm

/-! ## Lemmas: HTTP wrapper -/

theorem apiFetch_world (net : Net) (url : Url) (opts : Opts) (w : World) :
    (apiFetch net url opts w).2 =
      { w with requests := w.requests ++ [buildRequest url opts w] } := by
  unfold apiFetch
  dsimp only
  split
  · rfl
  · split <;> rfl

theorem apiFetch_fail (net : Net) (url : Url) (opts : Opts) (w : World) (res : Response)
    (hnet : net w.requests (buildRequest url opts w) = .ok res) (hfail : res.ok = false) :
    (apiFetch net url opts w).1 = .error (.error (errorMessage res).toStr) := by
  unfold apiFetch
  simp [hnet, hfail]

theorem apiFetch_ok (net : Net) (url : Url) (opts : Opts) (w : World) (res : Response)
    (hnet : net w.requests (buildRequest url opts w) = .ok res) (hok : res.ok = true) :
    (apiFetch net url opts w).1 = .ok (responseData res) := by
  unfold apiFetch
  simp [hnet, hok]

/-! ## Lemmas: headers and parameters -/


theorem getKey_setKey_self (h : List (String × String)) (k v : String) :
    getKey (setKey h k v) k = some v := by
  induction h with
  | nil => simp [setKey, getKey]
  | cons x xs ih =>
    obtain ⟨k0, v0⟩ := x
    by_cases hk : k0 = k
    · simp [setKey, getKey, hk]
    · simp [setKey, getKey, hk, ih]

theorem getKey_setKey_ne (h : List (String × String)) (k v q : String) (hq : q ≠ k) :
    getKey (setKey h k v) q = getKey h q := by
  induction h with
  | nil => simp [setKey, getKey, Ne.symm hq]
  | cons x xs ih =>
    obtain ⟨k0, v0⟩ := x
    by_cases hk : k0 = k
    · subst hk
      simp [setKey, getKey, Ne.symm hq]
    · by_cases hk2 : k0 = q
      · subst hk2
        simp [setKey, getKey, hk]
      · simp [setKey, getKey, hk, hk2, ih]

theorem jsTrim_empty : jsTrim "" = "" := rfl

/-! ## Lemmas: status message -/


theorem toast_requests (msg type : String) (w : World) :
    (toast msg type w).requests = w.requests := by
  unfold toast
  cases w.toast <;> rfl

theorem toast_shown (msg type : String) (w : World) (t0 : Toast) (h : w.toast = some t0)
    (ht : type ≠ "") : (toast msg type w).toast = some ⟨"toast " ++ type, msg⟩ := by
  unfold toast
  simp [h, ht]

/-! ## Lemmas: employee list -/


theorem apiFetch_eq (net : Net) (url : Url) (opts : Opts) (w : World) :
    apiFetch net url opts w =
      ((apiFetch net url opts w).1,
        { w with requests := w.requests ++ [buildRequest url opts w] }) := by
  rw [← apiFetch_world]

theorem toast_empPage (msg type : String) (w : World) :
    (toast msg type w).empPage = w.empPage := by
  unfold toast
  cases w.toast <;> rfl

theorem loadEmployees_cursor (net : Net) (w : World) :
    (loadEmployees net w).2.empPage = w.empPage ∧
    (loadEmployees net w).2.requests =
      w.requests ++ [buildRequest (employeesUrl w) { method := some "GET" } w] := by
  unfold loadEmployees
  rw [apiFetch_eq]
  cases (apiFetch net (employeesUrl w) { method := some "GET" } w).1 with
  | error e => exact ⟨rfl, rfl⟩
  | ok page =>
    dsimp only
    split
    · exact ⟨by rw [toast_empPage], by rw [toast_requests]⟩
    · split
      · split
        · exact ⟨rfl, rfl⟩
        · split <;> exact ⟨rfl, rfl⟩
      · exact ⟨rfl, rfl⟩

theorem employeesUrl_page (w : World) :
    (employeesUrl w).path = "/api/employees" ∧
    getKey (employeesUrl w).params "page" = some (toString w.empPage) := by
  unfold employeesUrl
  constructor
  · dsimp only [Url.set]
    split <;> rfl
  · dsimp only [Url.set]
    rw [getKey_setKey_ne _ _ _ _ (by decide), getKey_setKey_self]

theorem click_empPage (net : Net) (c : Click) (w : World) :
    (click net c w).empPage =
      match c with
      | .search => 0
      | .prev => max 0 (w.empPage - 1)
      | .next => w.empPage + 1 := by
  cases c <;> simp only [click, btnEmpSearch, btnEmpPrev, btnEmpNext] <;>
    rw [(loadEmployees_cursor net _).1]

theorem clicks_nonneg (net : Net) (cs : List Click) :
    ∀ w : World, 0 ≤ w.empPage → 0 ≤ (clicks net cs w).empPage := by
  induction cs with
  | nil => intro w h; exact h
  | cons c cs ih =>
    intro w h
    show 0 ≤ (clicks net cs (click net c w)).empPage
    apply ih
    rw [click_empPage]
    cases c
    · exact le_refl _
    · exact le_max_left _ _
    · show 0 ≤ w.empPage + 1
      omega

/-! ## Lemmas: saving, login, rendering -/

theorem clearEmpForm_requests (w : World) : (clearEmpForm w).requests = w.requests := rfl

theorem saveEmployee_requests (net : Net) (w : World) (url : Url) (opts : Opts)
    (r : Except Thrown JsVal) (label : String) :
    ∃ reads,
      (match ((r, { w with requests := w.requests ++ [buildRequest url opts w] }) :
          Except Thrown JsVal × World) with
        | (.error e, w1) => toast e.message "err" w1
        | (.ok _, w1) =>
          match loadEmployees net (clearEmpForm (toast label "ok" w1)) with
          | (.error e, w3) => toast e.message "err" w3
          | (.ok _, w3) => w3).requests =
        w.requests ++ buildRequest url opts w :: reads ∧
      ∀ q ∈ reads, q.method = "GET" := by
  cases r with
  | error e =>
    refine ⟨[], ?_, by simp⟩
    simp only [toast_requests]
  | ok v =>
    dsimp only
    generalize hw2 : clearEmpForm (toast label "ok"
      { w with requests := w.requests ++ [buildRequest url opts w] }) = w2
    have hreq : w2.requests = w.requests ++ [buildRequest url opts w] := by
      rw [← hw2, clearEmpForm_requests, toast_requests]
    have hc := (loadEmployees_cursor net w2).2
    rw [hreq] at hc
    refine ⟨[buildRequest (employeesUrl w2) { method := some "GET" } w2], ?_, ?_⟩
    · rcases hl : loadEmployees net w2 with ⟨r2, w3⟩
      rw [hl] at hc
      cases r2 with
      | error e =>
        simp only [toast_requests]
        rw [hc]
        simp
      | ok u =>
        simp only
        rw [hc]
        simp
    · intro q hq
      simp only [List.mem_singleton] at hq
      rw [hq]
      rfl

theorem setItemValue_str (s : String) : setItemValue (.str s) = s := by
  unfold setItemValue JsVal.orElse
  by_cases h : s = ""
  · subst h; rfl
  · simp [JsVal.truthy, h, JsVal.toStr]

theorem toast_href (msg type : String) (w : World) : (toast msg type w).href = w.href := by
  unfold toast
  cases w.toast <;> rfl

theorem appendRows_ok {β : Type} (row : JsVal → Except Thrown Row) (g : Row → β)
    (f : JsVal → β) (xs : List JsVal)
    (h : ∀ e ∈ xs, ∃ r, row e = .ok r ∧ g r = f e) :
    ∀ acc, ∃ rows, appendRows row xs acc = (.ok (), acc ++ rows) ∧
      rows.length = xs.length ∧ rows.map g = xs.map f := by
  induction xs with
  | nil =>
    intro acc
    exact ⟨[], by simp [appendRows], rfl, rfl⟩
  | cons x xs ih =>
    intro acc
    obtain ⟨r, hr, hg⟩ := h x (List.mem_cons_self _ _)
    obtain ⟨rows, h1, h2, h3⟩ :=
      ih (fun e he => h e (List.mem_cons_of_mem _ he)) (acc ++ [r])
    refine ⟨r :: rows, ?_, ?_, ?_⟩
    · simp only [appendRows, hr]
      rw [h1]
      simp
    · simp [h2]
    · simp [hg, h3]

theorem stringable_nullish (v d : JsVal) (hv : v.stringable = true)
    (hd : d.stringable = true) : (JsVal.nullish v d).stringable = true := by
  unfold JsVal.nullish
  split <;> assumption

theorem stringable_orElse (v d : JsVal) (hv : v.stringable = true)
    (hd : d.stringable = true) : (JsVal.orElse v d).stringable = true := by
  unfold JsVal.orElse
  split <;> assumption

theorem employeeRow_ok (fs : List (String × JsVal))
    (h : ∀ k ∈ ["id", "fullName", "department", "email", "phone", "joinDate"],
      (JsVal.lookup fs k).stringable = true) :
    employeeRow (.obj fs) = .ok
      { html :=
        "\n\t    <td>" ++ (JsVal.nullish ((JsVal.obj fs).prop "id") (.str "")).toStr ++
        "</td>\n\t    <td>" ++ esc (JsVal.nullish ((JsVal.obj fs).prop "fullName") (.str "")) ++
        "</td>\n\t    <td>" ++ esc (JsVal.orElse ((JsVal.obj fs).prop "department") (.str "")) ++
        "</td>\n\t    <td>" ++ esc (JsVal.orElse ((JsVal.obj fs).prop "email") (.str "")) ++
        "</td>\n\t    <td>" ++ esc (JsVal.orElse ((JsVal.obj fs).prop "phone") (.str "")) ++
        "</td>\n\t    <td>" ++ esc (JsVal.orElse ((JsVal.obj fs).prop "joinDate") (.str "")) ++
        "</td>\n\t    <td>\n\t      <button class=\"btn\" data-act=\"edit\" data-id=\"" ++
        ((JsVal.obj fs).prop "id").toStr ++
        "\">Edit</button>\n\t      <button class=\"btn danger\" data-act=\"del\" data-id=\"" ++
        ((JsVal.obj fs).prop "id").toStr ++
        "\">Deactivate</button>\n\t      <button class=\"btn danger\" data-act=\"purge\" data-id=\"" ++
        ((JsVal.obj fs).prop "id").toStr ++ "\" data-hr-only>Purge</button>\n\t    </td>\n\t  "
        buttons :=
          [ { cls := "btn", act := "edit", hrOnly := false, display := "", label := "Edit" },
            { cls := "btn danger", act := "del", hrOnly := false, display := "",
              label := "Deactivate" },
            { cls := "btn danger", act := "purge", hrOnly := true, display := "",
              label := "Purge" } ] } := by
  have hs : (JsVal.str "").stringable = true := rfl
  have hid := h "id" (by simp)
  have hfn := h "fullName" (by simp)
  have hde := h "department" (by simp)
  have hem := h "email" (by simp)
  have hph := h "phone" (by simp)
  have hjd := h "joinDate" (by simp)
  have hguard :
      ([ JsVal.nullish (JsVal.lookup fs "id") (.str ""),
         JsVal.nullish (JsVal.lookup fs "fullName") (.str ""),
         JsVal.orElse (JsVal.lookup fs "department") (.str ""),
         JsVal.orElse (JsVal.lookup fs "email") (.str ""),
         JsVal.orElse (JsVal.lookup fs "phone") (.str ""),
         JsVal.orElse (JsVal.lookup fs "joinDate") (.str ""),
         JsVal.lookup fs "id" ].all JsVal.stringable) = true := by
    simp only [List.all_cons, List.all_nil, Bool.and_true, Bool.and_eq_true]
    exact ⟨stringable_nullish _ _ hid hs, stringable_nullish _ _ hfn hs,
      stringable_orElse _ _ hde hs, stringable_orElse _ _ hem hs,
      stringable_orElse _ _ hph hs, stringable_orElse _ _ hjd hs, hid⟩
  unfold employeeRow
  simp only [JsVal.isNullish, JsVal.prop, Bool.false_eq_true, if_false]
  rw [if_pos hguard]

theorem map_of_map_ok {β : Type} (row : JsVal → Except Thrown Row) (g : Row → β)
    (f : JsVal → β) :
    ∀ (xs : List JsVal) (rows : List Row), rows.map Except.ok = xs.map row →
      (∀ e ∈ xs, ∀ r, row e = .ok r → g r = f e) → rows.map g = xs.map f := by
  intro xs
  induction xs with
  | nil =>
    intro rows h _
    cases rows with
    | nil => rfl
    | cons r rs => simp at h
  | cons x xs ih =>
    intro rows h hf
    cases rows with
    | nil => simp at h
    | cons r rs =>
      simp only [List.map_cons, List.cons.injEq] at h ⊢
      exact ⟨hf x (List.mem_cons_self _ _) r h.1.symm,
        ih rs h.2 (fun e he => hf e (List.mem_cons_of_mem _ he))⟩

/-! ## Lemmas: filled forms -/


theorem loadLeaves_requests (net : Net) (w : World) :
    ∃ more, (loadLeaves net w).requests = w.requests ++ more := by
  unfold loadLeaves
  rw [apiFetch_eq]
  cases (apiFetch net { path := API.leaves } { method := some "GET" } w).1 with
  | error e => exact ⟨_, by rw [toast_requests]⟩
  | ok list =>
    dsimp only
    rcases renderList leaveRow list with ⟨r, tb⟩
    cases r with
    | error e => exact ⟨_, by rw [toast_requests]⟩
    | ok u => exact ⟨_, rfl⟩

theorem loadSalary_requests (net : Net) (w : World) :
    ∃ more, (loadSalary net w).requests = w.requests ++ more := by
  unfold loadSalary
  dsimp only
  split
  · exact ⟨[], by rw [toast_requests]; simp⟩
  · rw [apiFetch_eq]
    cases (apiFetch net { path := API.salariesForEmployee (jsTrim (w.value "#sal_empId")) }
        { method := some "GET" } w).1 with
    | error e => exact ⟨_, by rw [toast_requests]⟩
    | ok list =>
      dsimp only
      rcases renderList salaryRow list with ⟨r, tb⟩
      cases r with
      | error e => exact ⟨_, by rw [toast_requests]⟩
      | ok u => exact ⟨_, by rw [toast_requests]⟩

/-- When every required field of an operation is non-blank after trimming, the
operation hands a request to `fetch`: the validation guard blocks only forms
with a blank required field. -/
theorem filled_form_sends_request (net : Net) (op : FormOp) (w : World)
    (hfilled : ∀ sel ∈ op.required, jsTrim (w.value sel) ≠ "") :
    ∃ req more, (op.run net w).requests = w.requests ++ req :: more := by
  have hval : ∀ sel ∈ op.required, w.value sel ≠ "" := by
    intro sel hsel h
    apply hfilled sel hsel
    rw [h]
    rfl
  cases op with
  | login =>
    have h1 := hfilled "#username" (by simp [FormOp.required])
    have h2 := hval "#password" (by simp [FormOp.required])
    have hw1 : (toast "Logging in..." "" (w.setDisabled "#btnLogin" true)).requests =
        w.requests := by rw [toast_requests]; rfl
    simp only [FormOp.run, handleLogin, h1, h2, or_self, if_false]
    rw [apiFetch_eq, hw1]
    refine ⟨buildRequest { path := API.login }
      { method := some "POST",
        json := some (.obj [("username", .str (jsTrim (w.value "#username"))),
          ("password", .str (w.value "#password"))]) }
      (toast "Logging in..." "" (w.setDisabled "#btnLogin" true)), [], ?_⟩
    cases (apiFetch net { path := API.login } _ _).1 with
    | error e =>
      simp only [World.setDisabled, toast_requests]
    | ok data =>
      dsimp only
      split
      · simp only [World.setDisabled, toast_requests]
      · rfl
  | register =>
    have h1 := hfilled "#r_username" (by simp [FormOp.required])
    have h2 := hval "#r_password" (by simp [FormOp.required])
    have hw1 : (toast "Registering..." "" (w.setDisabled "#btnRegister" true)).requests =
        w.requests := by rw [toast_requests]; rfl
    simp only [FormOp.run, handleRegister, h1, h2, or_self, if_false]
    rw [apiFetch_eq, hw1]
    refine ⟨buildRequest { path := API.register }
      { method := some "POST",
        json := some (.obj [("username", .str (jsTrim (w.value "#r_username"))),
          ("password", .str (w.value "#r_password")), ("role", .str (w.value "#r_role"))]) }
      (toast "Registering..." "" (w.setDisabled "#btnRegister" true)), [], ?_⟩
    cases (apiFetch net { path := API.register } _ _).1 with
    | error e =>
      simp only [World.setDisabled, toast_requests]
    | ok data =>
      simp only [World.setDisabled, World.setValue, toast_requests]
  | save =>
    have h1 := hfilled "#emp_name" (by simp [FormOp.required])
    have h2 := hfilled "#emp_email" (by simp [FormOp.required])
    simp only [FormOp.run, saveEmployee, h1, h2, if_false]
    by_cases hid : jsTrim (w.value "#emp_id") = ""
    · simp only [hid, ne_eq, not_true_eq_false, if_false]
      rw [apiFetch_eq]
      obtain ⟨reads, h, _⟩ := saveEmployee_requests net w { path := "/api/employees" }
        { method := some "POST", json := some (employeePayload w) }
        (apiFetch net { path := "/api/employees" }
          { method := some "POST", json := some (employeePayload w) } w).1 "Employee created"
      exact ⟨_, reads, h⟩
    · simp only [hid, ne_eq, not_false_eq_true, if_true]
      rw [apiFetch_eq]
      obtain ⟨reads, h, _⟩ := saveEmployee_requests net w
        { path := "/api/employees/" ++ jsTrim (w.value "#emp_id") }
        { method := some "PUT", json := some (employeePayload w) }
        (apiFetch net { path := "/api/employees/" ++ jsTrim (w.value "#emp_id") }
          { method := some "PUT", json := some (employeePayload w) } w).1 "Employee updated"
      exact ⟨_, reads, h⟩
  | mark =>
    have h1 := hfilled "#att_empId" (by simp [FormOp.required])
    have h2 := hval "#att_date" (by simp [FormOp.required])
    simp only [FormOp.run, markAttendance, h1, h2, or_self, if_false]
    rw [apiFetch_eq]
    cases (apiFetch net _ _ _).1 with
    | error e => exact ⟨_, [], by rw [toast_requests]⟩
    | ok data => exact ⟨_, [], by rw [toast_requests]⟩
  | monthly =>
    have h1 := hfilled "#att_rep_empId" (by simp [FormOp.required])
    have h2 := hval "#att_from" (by simp [FormOp.required])
    have h3 := hval "#att_to" (by simp [FormOp.required])
    simp only [FormOp.run, loadMonthlyAttendance, h1, h2, h3, or_self, if_false]
    rw [apiFetch_eq]
    cases (apiFetch net _ _ _).1 with
    | error e => exact ⟨_, [], by rw [toast_requests]⟩
    | ok list =>
      dsimp only
      rcases renderList attendanceRow list with ⟨r, tb⟩
      cases r with
      | error e => exact ⟨_, [], by rw [toast_requests]⟩
      | ok u => exact ⟨_, [], by rw [toast_requests]⟩
  | apply =>
    have h1 := hfilled "#lv_empId" (by simp [FormOp.required])
    have h2 := hval "#lv_from" (by simp [FormOp.required])
    have h3 := hval "#lv_to" (by simp [FormOp.required])
    simp only [FormOp.run, applyLeave, h1, h2, h3, or_self, if_false]
    rw [apiFetch_eq]
    cases (apiFetch net _ _ _).1 with
    | error e => exact ⟨_, [], by rw [toast_requests]⟩
    | ok data =>
      dsimp only
      obtain ⟨more, hm⟩ := loadLeaves_requests net (toast "Leave applied" "ok"
        { w with requests := w.requests ++ [buildRequest
          (if jsTrim (w.value "#lv_reason") ≠ "" then
            (((({ path := API.leavesApply } : Url).set "employeeId"
              (jsTrim (w.value "#lv_empId"))).set "from" (w.value "#lv_from")).set "to"
              (w.value "#lv_to")).set "reason" (jsTrim (w.value "#lv_reason"))
          else ((({ path := API.leavesApply } : Url).set "employeeId"
              (jsTrim (w.value "#lv_empId"))).set "from" (w.value "#lv_from")).set "to"
              (w.value "#lv_to"))
          { method := some "POST" } w] })
      rw [toast_requests] at hm
      exact ⟨_, more, hm.trans (List.append_assoc _ _ _)⟩
  | decide =>
    have h1 := hfilled "#lv_id" (by simp [FormOp.required])
    simp only [FormOp.run, decideLeave, h1, if_false]
    rw [apiFetch_eq]
    cases (apiFetch net _ _ _).1 with
    | error e => exact ⟨_, [], by rw [toast_requests]⟩
    | ok data =>
      dsimp only
      obtain ⟨more, hm⟩ := loadLeaves_requests net (toast "Leave updated" "ok"
        { w with requests := w.requests ++ [buildRequest
          ((({ path := API.leavesDecide } : Url).set "leaveId"
            (jsTrim (w.value "#lv_id"))).set "status" (w.value "#lv_status"))
          { method := some "POST" } w] })
      rw [toast_requests] at hm
      exact ⟨_, more, hm.trans (List.append_assoc _ _ _)⟩
  | leavesFor =>
    have h1 := hfilled "#lv_empId" (by simp [FormOp.required])
    simp only [FormOp.run, loadLeavesForEmployee, h1, if_false]
    rw [apiFetch_eq]
    cases (apiFetch net _ _ _).1 with
    | error e => exact ⟨_, [], by rw [toast_requests]⟩
    | ok list =>
      dsimp only
      rcases renderList employeeLeaveRow list with ⟨r, tb⟩
      cases r with
      | error e => exact ⟨_, [], by rw [toast_requests]⟩
      | ok u => exact ⟨_, [], by rw [toast_requests]⟩
  | salarySet =>
    have h1 := hfilled "#sal_empId" (by simp [FormOp.required])
    have h2 := hfilled "#sal_month" (by simp [FormOp.required])
    have h3 := hfilled "#sal_basic" (by simp [FormOp.required])
    simp only [FormOp.run, setSalary, h1, h2, h3, or_self, if_false]
    rw [apiFetch_eq]
    cases (apiFetch net _ _ _).1 with
    | error e => exact ⟨_, [], by rw [toast_requests]⟩
    | ok data =>
      dsimp only
      obtain ⟨more, hm⟩ := loadSalary_requests net (toast "Salary saved" "ok"
        { w with requests := w.requests ++ [buildRequest (salaryUrl API.salariesSet w)
          { method := some "POST" } w] })
      rw [toast_requests] at hm
      exact ⟨_, more, hm.trans (List.append_assoc _ _ _)⟩
  | salaryLoad =>
    have h1 := hfilled "#sal_empId" (by simp [FormOp.required])
    simp only [FormOp.run, loadSalary, h1, if_false]
    rw [apiFetch_eq]
    cases (apiFetch net _ _ _).1 with
    | error e => exact ⟨_, [], by rw [toast_requests]⟩
    | ok list =>
      dsimp only
      rcases renderList salaryRow list with ⟨r, tb⟩
      cases r with
      | error e => exact ⟨_, [], by rw [toast_requests]⟩
      | ok u => exact ⟨_, [], by rw [toast_requests]⟩
  | salaryGenerate =>
    have h1 := hfilled "#sal_empId" (by simp [FormOp.required])
    have h2 := hfilled "#sal_month" (by simp [FormOp.required])
    have h3 := hfilled "#sal_basic" (by simp [FormOp.required])
    simp only [FormOp.run, generateSalaryAuto, h1, h2, h3, or_self, if_false]
    rw [apiFetch_eq]
    cases (apiFetch net _ _ _).1 with
    | error e => exact ⟨_, [], by rw [toast_requests]⟩
    | ok data =>
      dsimp only
      obtain ⟨more, hm⟩ := loadSalary_requests net (toast "Salary generated successfully" "ok"
        { w with requests := w.requests ++ [buildRequest (salaryUrl "/api/salaries/generate" w)
          { method := some "POST" } w] })
      rw [toast_requests] at hm
      exact ⟨_, more, hm.trans (List.append_assoc _ _ _)⟩

/-! ## Properties -/

/-- C10. For every string `s`, `esc(s)` holds none of the characters `<`, `>`,
double quote and apostrophe; every `&` in it starts one of the five entities;
replacing the entities by their characters gives `s` back; a string with none
of the five characters is left unchanged; `esc` is injective on strings; and
`esc(null)` and `esc(undefined)` are the empty string. -/
theorem esc_sound :
    (∀ s : String,
      (∀ c ∈ (esc (.str s)).data, c ≠ '<' ∧ c ≠ '>' ∧ c ≠ '"' ∧ c ≠ apos) ∧
      (∀ pre post, (esc (.str s)).data = pre ++ '&' :: post →
        ∃ e ∈ entities, ∃ rest, '&' :: post = e ++ rest) ∧
      unesc (esc (.str s)) = s ∧
      ((∀ c ∈ s.data, c ≠ '&' ∧ c ≠ '<' ∧ c ≠ '>' ∧ c ≠ '"' ∧ c ≠ apos) →
        esc (.str s) = s)) ∧
    (∀ s t : String, esc (.str s) = esc (.str t) → s = t) ∧
    esc .null = "" ∧ esc .undefined = "" := by
  have hdata : ∀ s : String, (esc (.str s)).data = escChars s.data := fun _ => rfl
  have hround : ∀ s : String, unesc (esc (.str s)) = s := by
    intro s
    apply String.ext
    show unescChars (esc (.str s)).data = s.data
    rw [hdata, unescChars_escChars]
  refine ⟨fun s => ⟨?_, ?_, hround s, ?_⟩, ?_, rfl, rfl⟩
  · intro c hc
    rw [hdata] at hc
    exact escChars_clean s.data c hc
  · intro pre post h
    rw [hdata] at h
    exact escChars_amp s.data pre post h
  · intro h
    apply String.ext
    rw [hdata, escChars_id s.data h]
  · intro s t h
    rw [← hround s, ← hround t, h]

/-- C5. For every stored role string `r`, `canHR()` is true exactly when `r`
contains `ADMIN` or contains `HR`; it is true for `ROLE_ADMIN` and
`HR_MANAGER`, false for `EMPLOYEE`, for the empty role and for an absent
one. -/
theorem canHR_iff_substring :
    (∀ (w : World) (r : String),
      canHR { w with ems_role := some r } = true ↔
        (∃ a b : String, r = a ++ "ADMIN" ++ b) ∨ (∃ a b : String, r = a ++ "HR" ++ b)) ∧
    (∀ w : World, canHR { w with ems_role := some "ROLE_ADMIN" } = true) ∧
    (∀ w : World, canHR { w with ems_role := some "HR_MANAGER" } = true) ∧
    (∀ w : World, canHR { w with ems_role := some "EMPLOYEE" } = false) ∧
    (∀ w : World, canHR { w with ems_role := some "" } = false) ∧
    (∀ w : World, canHR { w with ems_role := none } = false) := by
  refine ⟨?_, fun _ => rfl, fun _ => rfl, fun _ => rfl, fun _ => rfl, fun _ => rfl⟩
  intro w r
  simp only [canHR, store.role, getItemOrEmpty_some, Bool.or_eq_true, includes_iff]

/-- C1 as stated fails. A response with status 400 whose JSON body has the
empty string as `message` makes `apiFetch` raise `HTTP 400`, not that
field. -/
theorem apiFetch_empty_message_not_surfaced :
    (apiFetch netEmptyMessage { path := API.login } { method := some "POST" } {}).1 =
        .error (.error "HTTP 400") ∧
      (apiFetch netEmptyMessage { path := API.login } { method := some "POST" } {}).1 ≠
        .error (.error "") := by
  constructor
  · rfl
  · intro h
    have h2 : (Except.error (Thrown.error "HTTP 400") : Except Thrown JsVal) =
        .error (.error "") := h
    injection h2 with h3
    injection h3 with h4
    exact absurd h4 (by decide)

/-- C1, amended. For a response whose status is outside 200 to 299,
`apiFetch` returns no value and raises one Error. Its message is the `message`
field of the parsed body when body and field are truthy (ToString of the
field); otherwise the body when it is a JSON string or is not JSON at all;
otherwise `HTTP <status>` (empty body, or JSON that is not a string and has no
truthy `message`). In particular a body whose only field is a non-empty
`message` string `m`, with a status of 400 or more, surfaces exactly `m`. -/
theorem apiFetch_failure_message (net : Net) (url : Url) (opts : Opts) (w : World)
    (res : Response)
    (hnet : net w.requests (buildRequest url opts w) = .ok res) (hfail : res.ok = false) :
    (∃ msg, (apiFetch net url opts w).1 = .error (.error msg)) ∧
    (∀ v, res.text ≠ "" → res.json = some v → v.truthy = true →
        (v.prop "message").truthy = true →
        (apiFetch net url opts w).1 = .error (.error (v.prop "message").toStr)) ∧
    (∀ s, res.text ≠ "" → res.json = some (.str s) →
        (apiFetch net url opts w).1 = .error (.error s)) ∧
    (res.text ≠ "" → res.json = none →
        (apiFetch net url opts w).1 = .error (.error res.text)) ∧
    (res.text = "" →
        (apiFetch net url opts w).1 = .error (.error ("HTTP " ++ toString res.status))) ∧
    (∀ v, res.text ≠ "" → res.json = some v → v.isString = false →
        (v.truthy = false ∨ (v.prop "message").truthy = false) →
        (apiFetch net url opts w).1 = .error (.error ("HTTP " ++ toString res.status))) ∧
    (∀ m : String, m ≠ "" → 400 ≤ res.status → res.text ≠ "" →
        res.json = some (.obj [("message", .str m)]) →
        (apiFetch net url opts w).1 = .error (.error m)) := by
  rw [apiFetch_fail net url opts w res hnet hfail]
  refine ⟨⟨_, rfl⟩, ?_, ?_, ?_, ?_, ?_, ?_⟩
  · intro v ht hj hv hm
    simp [errorMessage, responseData, ht, hj, hv, hm]
  · intro s ht hj
    by_cases hs : s = ""
    · simp [errorMessage, responseData, ht, hj, hs, JsVal.truthy, JsVal.isString, JsVal.toStr]
    · simp [errorMessage, responseData, ht, hj, hs, JsVal.truthy, JsVal.isString, JsVal.toStr,
        JsVal.prop]
  · intro ht hj
    simp [errorMessage, responseData, ht, hj, JsVal.truthy, JsVal.isString, JsVal.toStr,
      JsVal.prop]
  · intro ht
    simp [errorMessage, responseData, ht, JsVal.truthy, JsVal.isString, JsVal.toStr]
  · intro v ht hj hs hor
    rcases hor with h | h <;>
      simp [errorMessage, responseData, ht, hj, hs, h, JsVal.toStr]
  · intro m hm _ ht hj
    simp [errorMessage, responseData, ht, hj, hm, JsVal.truthy, JsVal.prop, JsVal.lookup,
      JsVal.toStr]

/-- Witness for C1: status 401 with message `Invalid credentials` surfaces
`Invalid credentials`. -/
theorem apiFetch_failure_message_witness :
    (apiFetch netInvalidCredentials { path := API.login } { method := some "POST" } {}).1 =
      .error (.error "Invalid credentials") :=
  (apiFetch_failure_message netInvalidCredentials { path := API.login }
    { method := some "POST" } {} _ rfl rfl).2.2.2.2.2.2 "Invalid credentials" (by decide)
    (by decide) (by decide) rfl

/-- C9 as stated fails. With no stored token, a call that supplies the header
`Content-Type: text/plain` together with a JSON payload is sent with
`Content-Type: application/json`: the caller's header is not sent unchanged. -/
theorem apiFetch_replaces_content_type :
    store.token ({} : World) = "" ∧
    ((apiFetch netInvalidCredentials { path := API.login }
        { method := some "POST", headers := some [("Content-Type", "text/plain")],
          json := some (.obj []) } {}).2.requests.map fun r => r.headers) =
      [[("Content-Type", "application/json")]] := by
  constructor <;> rfl

/-- C9, amended. Every call `apiFetch(url, opts)` sends one request. With a
non-empty stored token `t` its `Authorization` header is exactly `Bearer ` followed
by `t`, whatever headers the caller supplied. With an empty token `apiFetch`
adds no `Authorization` header and every caller header other than
`Content-Type` is sent unchanged; the headers are the caller's as a whole when
no truthy `opts.json` is given, and `Content-Type` is `application/json` when
one is. -/
theorem apiFetch_authorization (net : Net) (url : Url) (opts : Opts) (w : World) :
    ∃ req, (apiFetch net url opts w).2.requests = w.requests ++ [req] ∧
      (store.token w ≠ "" →
        getKey req.headers "Authorization" = some ("Bearer " ++ store.token w)) ∧
      (store.token w = "" →
        getKey req.headers "Authorization" = getKey (opts.headers.getD []) "Authorization" ∧
        (∀ k, k ≠ "Content-Type" → getKey req.headers k = getKey (opts.headers.getD []) k) ∧
        ((∀ j, opts.json = some j → j.truthy = false) → req.headers = opts.headers.getD []) ∧
        (∀ j, opts.json = some j → j.truthy = true →
          getKey req.headers "Content-Type" = some "application/json")) := by
  refine ⟨buildRequest url opts w, by rw [apiFetch_world], ?_, ?_⟩
  · intro ht
    cases hj : opts.json with
    | none => simp [buildRequest, ht, hj, getKey_setKey_self]
    | some j =>
      cases hjt : j.truthy
      · simp [buildRequest, ht, hj, hjt, getKey_setKey_self]
      · simp [buildRequest, ht, hj, hjt]
        rw [getKey_setKey_ne _ _ _ _ (by decide), getKey_setKey_self]
  · intro ht
    have hcaller : (match opts.headers with | some h => h | none => []) = opts.headers.getD [] := by
      cases opts.headers <;> rfl
    refine ⟨?_, ?_, ?_, ?_⟩
    · cases hj : opts.json with
      | none => simp [buildRequest, ht, hj, hcaller]
      | some j =>
        cases hjt : j.truthy
        · simp [buildRequest, ht, hj, hjt, hcaller]
        · simp [buildRequest, ht, hj, hjt, hcaller]
          rw [getKey_setKey_ne _ _ _ _ (by decide)]
    · intro k hk
      cases hj : opts.json with
      | none => simp [buildRequest, ht, hj, hcaller]
      | some j =>
        cases hjt : j.truthy
        · simp [buildRequest, ht, hj, hjt, hcaller]
        · simp [buildRequest, ht, hj, hjt, hcaller]
          rw [getKey_setKey_ne _ _ _ _ hk]
    · intro hoff
      cases hj : opts.json with
      | none => simp [buildRequest, ht, hj, hcaller]
      | some j => simp [buildRequest, ht, hj, hoff j hj, hcaller]
    · intro j hj hjt
      simp [buildRequest, ht, hj, hjt, getKey_setKey_self]

/-- C2. For each of the eleven form-submitting operations, on a page with a
status element: when one of the operation's required fields is empty, the
operation hands no request to `fetch` and the status element shows one of the
operation's validation messages with class `toast err`. -/
theorem missing_field_blocks_request (net : Net) (op : FormOp) (w : World) (t0 : Toast)
    (htoast : w.toast = some t0)
    (hmiss : ∃ sel ∈ op.required, w.value sel = "") :
    (op.run net w).requests = w.requests ∧
    ∃ msg ∈ op.messages, msg ≠ "" ∧ (op.run net w).toast = some ⟨"toast err", msg⟩ := by
  have hshow : ∀ msg : String,
      (toast msg "err" w).toast = some ⟨"toast err", msg⟩ := fun msg =>
    toast_shown msg "err" w t0 htoast (by decide)
  obtain ⟨sel, hsel, hval⟩ := hmiss
  cases op with
  | login =>
    have hrun : FormOp.run net .login w = toast "Username & password required" "err" w := by
      simp only [FormOp.required, List.mem_cons, List.mem_singleton, List.not_mem_nil,
        or_false] at hsel
      rcases hsel with rfl | rfl <;> simp [FormOp.run, handleLogin, hval, jsTrim_empty]
    rw [hrun]
    exact ⟨toast_requests _ _ _, _, by simp [FormOp.messages], by decide, hshow _⟩
  | register =>
    have hrun : FormOp.run net .register w = toast "Username & password required" "err" w := by
      simp only [FormOp.required, List.mem_cons, List.mem_singleton, List.not_mem_nil,
        or_false] at hsel
      rcases hsel with rfl | rfl <;> simp [FormOp.run, handleRegister, hval, jsTrim_empty]
    rw [hrun]
    exact ⟨toast_requests _ _ _, _, by simp [FormOp.messages], by decide, hshow _⟩
  | save =>
    by_cases hname : jsTrim (w.value "#emp_name") = ""
    · have hrun : FormOp.run net .save w = toast "Name required" "err" w := by
        simp [FormOp.run, saveEmployee, hname]
      rw [hrun]
      exact ⟨toast_requests _ _ _, _, by simp [FormOp.messages], by decide, hshow _⟩
    · have hemail : jsTrim (w.value "#emp_email") = "" := by
        simp only [FormOp.required, List.mem_cons, List.mem_singleton, List.not_mem_nil,
          or_false] at hsel
        rcases hsel with rfl | rfl
        · rw [hval] at hname
          exact absurd jsTrim_empty hname
        · rw [hval]
          rfl
      have hrun : FormOp.run net .save w = toast "Email required" "err" w := by
        simp [FormOp.run, saveEmployee, hname, hemail]
      rw [hrun]
      exact ⟨toast_requests _ _ _, _, by simp [FormOp.messages], by decide, hshow _⟩
  | mark =>
    have hrun : FormOp.run net .mark w = toast "EmployeeId & Date required" "err" w := by
      simp only [FormOp.required, List.mem_cons, List.mem_singleton, List.not_mem_nil,
        or_false] at hsel
      rcases hsel with rfl | rfl <;> simp [FormOp.run, markAttendance, hval, jsTrim_empty]
    rw [hrun]
    exact ⟨toast_requests _ _ _, _, by simp [FormOp.messages], by decide, hshow _⟩
  | monthly =>
    have hrun : FormOp.run net .monthly w = toast "EmployeeId, From, To required" "err" w := by
      simp only [FormOp.required, List.mem_cons, List.mem_singleton, List.not_mem_nil,
        or_false] at hsel
      rcases hsel with rfl | rfl | rfl <;>
        simp [FormOp.run, loadMonthlyAttendance, hval, jsTrim_empty]
    rw [hrun]
    exact ⟨toast_requests _ _ _, _, by simp [FormOp.messages], by decide, hshow _⟩
  | apply =>
    have hrun : FormOp.run net .apply w = toast "EmployeeId, From, To required" "err" w := by
      simp only [FormOp.required, List.mem_cons, List.mem_singleton, List.not_mem_nil,
        or_false] at hsel
      rcases hsel with rfl | rfl | rfl <;> simp [FormOp.run, applyLeave, hval, jsTrim_empty]
    rw [hrun]
    exact ⟨toast_requests _ _ _, _, by simp [FormOp.messages], by decide, hshow _⟩
  | decide =>
    have hrun : FormOp.run net .decide w = toast "LeaveId required" "err" w := by
      simp only [FormOp.required, List.mem_singleton] at hsel
      subst hsel
      simp [FormOp.run, decideLeave, hval, jsTrim_empty]
    rw [hrun]
    exact ⟨toast_requests _ _ _, _, by simp [FormOp.messages], by decide, hshow _⟩
  | leavesFor =>
    have hrun : FormOp.run net .leavesFor w = toast "EmployeeId required" "err" w := by
      simp only [FormOp.required, List.mem_singleton] at hsel
      subst hsel
      simp [FormOp.run, loadLeavesForEmployee, hval, jsTrim_empty]
    rw [hrun]
    exact ⟨toast_requests _ _ _, _, by simp [FormOp.messages], by decide, hshow _⟩
  | salarySet =>
    have hrun : FormOp.run net .salarySet w =
        toast "EmployeeId, Month(YYYY-MM), Basic required" "err" w := by
      simp only [FormOp.required, List.mem_cons, List.mem_singleton, List.not_mem_nil,
        or_false] at hsel
      rcases hsel with rfl | rfl | rfl <;> simp [FormOp.run, setSalary, hval, jsTrim_empty]
    rw [hrun]
    exact ⟨toast_requests _ _ _, _, by simp [FormOp.messages], by decide, hshow _⟩
  | salaryLoad =>
    have hrun : FormOp.run net .salaryLoad w =
        toast "EmployeeId required to load salary" "err" w := by
      simp only [FormOp.required, List.mem_singleton] at hsel
      subst hsel
      simp [FormOp.run, loadSalary, hval, jsTrim_empty]
    rw [hrun]
    exact ⟨toast_requests _ _ _, _, by simp [FormOp.messages], by decide, hshow _⟩
  | salaryGenerate =>
    have hrun : FormOp.run net .salaryGenerate w =
        toast "EmployeeId, Month & Basic required" "err" w := by
      simp only [FormOp.required, List.mem_cons, List.mem_singleton, List.not_mem_nil,
        or_false] at hsel
      rcases hsel with rfl | rfl | rfl <;>
        simp [FormOp.run, generateSalaryAuto, hval, jsTrim_empty]
    rw [hrun]
    exact ⟨toast_requests _ _ _, _, by simp [FormOp.messages], by decide, hshow _⟩

/-- C3. From `empPage = 0`, after every finite sequence of Search, Prev and
Next clicks `empPage` is non-negative; each further click sends one GET to
`/api/employees` whose `page` parameter is the value of `empPage` after the
click; Next adds exactly 1, Prev subtracts 1 from a positive cursor and keeps
0 at 0, Search resets the cursor to 0. -/
theorem pagination_cursor (net : Net) (w0 : World) (cs : List Click)
    (h0 : w0.empPage = 0) :
    ∀ w, w = clicks net cs w0 →
      0 ≤ w.empPage ∧
      ∀ c w1, w1 = click net c w →
        (∃ req, w1.requests = w.requests ++ [req] ∧ req.method = "GET" ∧
          req.url.path = "/api/employees" ∧
          getKey req.url.params "page" = some (toString w1.empPage)) ∧
        (c = .next → w1.empPage = w.empPage + 1) ∧
        (c = .prev → (1 ≤ w.empPage → w1.empPage = w.empPage - 1) ∧
          (w.empPage = 0 → w1.empPage = 0)) ∧
        (c = .search → w1.empPage = 0) := by
  intro w hw
  have hnn : 0 ≤ w.empPage := by
    rw [hw]
    exact clicks_nonneg net cs w0 (by rw [h0])
  refine ⟨hnn, ?_⟩
  intro c w1 hw1
  have hpage := click_empPage net c w
  rw [← hw1] at hpage
  refine ⟨?_, ?_, ?_, ?_⟩
  · cases c
    · refine ⟨_, by rw [hw1]; exact (loadEmployees_cursor net _).2, rfl, ?_, ?_⟩
      · exact (employeesUrl_page _).1
      · rw [hpage]
        exact (employeesUrl_page _).2
    · refine ⟨_, by rw [hw1]; exact (loadEmployees_cursor net _).2, rfl, ?_, ?_⟩
      · exact (employeesUrl_page _).1
      · rw [hpage]
        exact (employeesUrl_page _).2
    · refine ⟨_, by rw [hw1]; exact (loadEmployees_cursor net _).2, rfl, ?_, ?_⟩
      · exact (employeesUrl_page _).1
      · rw [hpage]
        exact (employeesUrl_page _).2
  · intro hc
    subst hc
    exact hpage
  · intro hc
    subst hc
    simp only at hpage
    constructor
    · intro h1
      rw [hpage]
      exact max_eq_right (by omega)
    · intro hz
      rw [hpage, hz]
      rfl
  · intro hc
    subst hc
    exact hpage

/-- Witness for C2: an attendance form without a date. -/
theorem missing_field_blocks_request_witness :
    (FormOp.run netDashboard .mark attendanceFormNoDate).requests = [] ∧
    ∃ msg ∈ FormOp.messages .mark, msg ≠ "" ∧
      (FormOp.run netDashboard .mark attendanceFormNoDate).toast =
        some ⟨"toast err", msg⟩ :=
  missing_field_blocks_request netDashboard .mark attendanceFormNoDate ⟨"", ""⟩ rfl
    ⟨"#att_date", by decide, rfl⟩

/-- Witness for C3: after Next, Next, Prev from page 0 the cursor is
non-negative and a further Next adds exactly 1. -/
theorem pagination_cursor_witness :
    ({} : World).empPage = 0 ∧
    0 ≤ (clicks netDashboard [.next, .next, .prev] {}).empPage ∧
    (click netDashboard .next (clicks netDashboard [.next, .next, .prev] {})).empPage =
      (clicks netDashboard [.next, .next, .prev] {}).empPage + 1 :=
  ⟨rfl, (pagination_cursor netDashboard {} [.next, .next, .prev] rfl _ rfl).1,
    ((pagination_cursor netDashboard {} [.next, .next, .prev] rfl _ rfl).2 .next _ rfl).2.1 rfl⟩

/-- C4 as stated fails. An employee form whose name is one space and whose
email is `ann@x.org` has a non-empty name and email, yet `saveEmployee` sends
no request at all and shows `Name required`. -/
theorem saveEmployee_blank_name_sends_nothing :
    employeeFormBlankName.value "#emp_name" ≠ "" ∧
    employeeFormBlankName.value "#emp_email" ≠ "" ∧
    (saveEmployee netDashboard employeeFormBlankName).requests = [] ∧
    (saveEmployee netDashboard employeeFormBlankName).toast =
      some ⟨"toast err", "Name required"⟩ := by
  refine ⟨by decide, by decide, rfl, rfl⟩

/-- C4, amended. For every employee form whose name and email are non-empty
after trimming, `saveEmployee` sends exactly one write request, followed only
by GET requests: a POST to `/api/employees` when the trimmed id is empty, a PUT
to `/api/employees/<trimmed id>` when it is not. Its JSON body holds the
trimmed `fullName`, `department`, `email`, `phone` and the `joinDate` as
entered. -/
theorem saveEmployee_create_or_update (net : Net) (w : World)
    (hname : jsTrim (w.value "#emp_name") ≠ "")
    (hemail : jsTrim (w.value "#emp_email") ≠ "") :
    ∃ write reads,
      (saveEmployee net w).requests = w.requests ++ write :: reads ∧
      (∀ q ∈ reads, q.method = "GET") ∧
      write.body = some (.obj
        [ ("fullName", .str (jsTrim (w.value "#emp_name"))),
          ("department", .str (jsTrim (w.value "#emp_dept"))),
          ("email", .str (jsTrim (w.value "#emp_email"))),
          ("phone", .str (jsTrim (w.value "#emp_phone"))),
          ("joinDate", .str (w.value "#emp_join")) ]) ∧
      write.url.params = [] ∧
      (jsTrim (w.value "#emp_id") = "" →
        write.method = "POST" ∧ write.url.path = "/api/employees") ∧
      (jsTrim (w.value "#emp_id") ≠ "" →
        write.method = "PUT" ∧
        write.url.path = "/api/employees/" ++ jsTrim (w.value "#emp_id")) := by
  unfold saveEmployee
  simp only [hname, hemail, if_false]
  by_cases hid : jsTrim (w.value "#emp_id") = ""
  · simp only [hid, ne_eq, not_true_eq_false, if_false]
    rw [apiFetch_eq]
    obtain ⟨reads, h1, h2⟩ := saveEmployee_requests net w { path := "/api/employees" }
      { method := some "POST", json := some (employeePayload w) }
      (apiFetch net { path := "/api/employees" }
        { method := some "POST", json := some (employeePayload w) } w).1 "Employee created"
    refine ⟨_, reads, h1, h2, rfl, rfl, fun _ => ⟨rfl, rfl⟩, fun h => h.elim⟩
  · simp only [hid, ne_eq, not_false_eq_true, if_true]
    rw [apiFetch_eq]
    obtain ⟨reads, h1, h2⟩ := saveEmployee_requests net w
      { path := "/api/employees/" ++ jsTrim (w.value "#emp_id") }
      { method := some "PUT", json := some (employeePayload w) }
      (apiFetch net { path := "/api/employees/" ++ jsTrim (w.value "#emp_id") }
        { method := some "PUT", json := some (employeePayload w) } w).1 "Employee updated"
    refine ⟨_, reads, h1, h2, rfl, rfl, fun h => h.elim, fun _ => ⟨rfl, rfl⟩⟩

/-- Witness for C4: the form holding id `7` is sent as a PUT to
`/api/employees/7`. -/
theorem saveEmployee_create_or_update_witness :
    jsTrim ((employeeForm "7").value "#emp_name") ≠ "" ∧
    jsTrim ((employeeForm "7").value "#emp_email") ≠ "" ∧
    ∃ write reads,
      (saveEmployee netDashboard (employeeForm "7")).requests =
        (employeeForm "7").requests ++ write :: reads ∧
      write.method = "PUT" ∧ write.url.path = "/api/employees/7" := by
  obtain ⟨write, reads, h1, _, _, _, _, h6⟩ :=
    saveEmployee_create_or_update netDashboard (employeeForm "7") (by decide) (by decide)
  exact ⟨by decide, by decide, write, reads, h1, (h6 (by decide)).1, (h6 (by decide)).2⟩

/-- C7 as stated fails. With a username of one space (non-empty) and
password `pw`, against a backend that answers every login with the successful
response of the example, `handleLogin` sends nothing, stores no token and
does not navigate. -/
theorem handleLogin_blank_username_no_session :
    loginFormBlankUser.value "#username" ≠ "" ∧
    loginFormBlankUser.value "#password" ≠ "" ∧
    (handleLogin netLogin loginFormBlankUser).requests = [] ∧
    store.token (handleLogin netLogin loginFormBlankUser) = "" ∧
    (handleLogin netLogin loginFormBlankUser).href = "" := by
  refine ⟨by decide, by decide, rfl, rfl, rfl⟩

/-- C7, amended. For every username that is non-empty after trimming, every
non-empty password and every successful login response whose body is
`token: t, username: u, role: r` (strings), after `handleLogin` the session
store holds exactly `t`, `u` and `r`, the page has navigated to
`/app/dashboard.html`, and the one request sent is the POST of the trimmed
username and the password to `/api/auth/login`. -/
theorem handleLogin_stores_session (net : Net) (w : World) (res : Response)
    (t u r : String)
    (huser : jsTrim (w.value "#username") ≠ "") (hpass : w.value "#password" ≠ "")
    (hnet : ∀ req : Request, req.url.path = "/api/auth/login" → net w.requests req = .ok res)
    (hok : res.ok = true) (htext : res.text ≠ "")
    (hjson : res.json =
      some (.obj [("token", .str t), ("username", .str u), ("role", .str r)])) :
    store.token (handleLogin net w) = t ∧
    store.username (handleLogin net w) = u ∧
    store.role (handleLogin net w) = r ∧
    (handleLogin net w).ems_token = some t ∧
    (handleLogin net w).ems_username = some u ∧
    (handleLogin net w).ems_role = some r ∧
    (handleLogin net w).href = "/app/dashboard.html" ∧
    ∃ req, (handleLogin net w).requests = w.requests ++ [req] ∧ req.method = "POST" ∧
      req.url.path = "/api/auth/login" ∧
      req.body = some (.obj [("username", .str (jsTrim (w.value "#username"))),
        ("password", .str (w.value "#password"))]) := by
  have hdata : responseData res =
      .obj [("token", .str t), ("username", .str u), ("role", .str r)] := by
    simp [responseData, htext, hjson]
  have hrun : handleLogin net w =
      ({ (store.setRole (.str r) (store.setUsername (.str u) (store.setToken (.str t)
          { (toast "Logging in..." "" (w.setDisabled "#btnLogin" true)) with
            requests := w.requests ++
              [buildRequest { path := API.login }
                { method := some "POST",
                  json := some (.obj [("username", .str (jsTrim (w.value "#username"))),
                    ("password", .str (w.value "#password"))]) }
                (toast "Logging in..." "" (w.setDisabled "#btnLogin" true))] })))
          with href := "/app/dashboard.html" } : World).setDisabled "#btnLogin" false := by
    unfold handleLogin
    have hw1 : (toast "Logging in..." "" (w.setDisabled "#btnLogin" true)).requests =
        w.requests := by rw [toast_requests]; rfl
    simp only [huser, hpass, or_self, if_false]
    rw [apiFetch_eq, apiFetch_ok net _ _ _ res (by rw [hw1]; exact hnet _ rfl) hok, hdata,
      hw1]
    rfl
  rw [hrun]
  refine ⟨?_, ?_, ?_, ?_, ?_, ?_, rfl, _, rfl, rfl, rfl, rfl⟩
  · show getItemOrEmpty (some (setItemValue (.str t))) = t
    rw [setItemValue_str, getItemOrEmpty_some]
  · show getItemOrEmpty (some (setItemValue (.str u))) = u
    rw [setItemValue_str, getItemOrEmpty_some]
  · show getItemOrEmpty (some (setItemValue (.str r))) = r
    rw [setItemValue_str, getItemOrEmpty_some]
  · show some (setItemValue (.str t)) = some t
    rw [setItemValue_str]
  · show some (setItemValue (.str u)) = some u
    rw [setItemValue_str]
  · show some (setItemValue (.str r)) = some r
    rw [setItemValue_str]

/-- Witness for C7: the response with token `t1`, username `bob`, role
`HR`. -/
theorem handleLogin_stores_session_witness :
    store.token (handleLogin netLogin loginForm) = "t1" ∧
    store.username (handleLogin netLogin loginForm) = "bob" ∧
    store.role (handleLogin netLogin loginForm) = "HR" ∧
    (handleLogin netLogin loginForm).href = "/app/dashboard.html" := by
  have h := handleLogin_stores_session netLogin loginForm responseLogin "t1" "bob" "HR"
    (by decide) (by decide) (fun _ _ => rfl) rfl (by decide) rfl
  exact ⟨h.1, h.2.1, h.2.2.1, h.2.2.2.2.2.2.1⟩

/-- C8 as stated fails. For the successful page response whose `number` is
`p = 2^53` (one employee, 3 pages, 25 elements) the indicator reads
`Page 9007199254740992 of 3 • Total 25`: in double arithmetic `2^53 + 1` is
`2^53`, so the page shown is `p`, not `p + 1`. -/
theorem loadEmployees_indicator_at_limit :
    (loadEmployees netPageNumberLimit {}).2.emp_tbody.length = 1 ∧
    (loadEmployees netPageNumberLimit {}).2.emp_page =
      "Page 9007199254740992 of 3 • Total 25" ∧
    (loadEmployees netPageNumberLimit {}).2.emp_page ≠
      "Page 9007199254740993 of 3 • Total 25" := by
  refine ⟨rfl, rfl, ?_⟩
  have h : (loadEmployees netPageNumberLimit {}).2.emp_page =
      "Page 9007199254740992 of 3 • Total 25" := rfl
  rw [h]
  decide

/-- C8, amended. Numbers are integers of magnitude at most `2^53`. For every
successful employee page response whose body is an object holding `content` (a
list of employees), `number: p` with `p < 2^53`, `totalPages: tp` with
`tp ≥ 1` and `totalElements: te`, each employee being an object whose `id`,
`fullName`, `department`, `email`, `phone` and `joinDate` convert to strings:
`loadEmployees` returns normally, the employee table has exactly as many rows
as `content`, the markup of the rows is, in the same order, the row template
filled with the fields of each element, and the page indicator reads
`Page <p+1> of <tp> • Total <te>`. -/
theorem loadEmployees_renders (net : Net) (w : World) (res : Response)
    (fields : List (String × JsVal)) (content : List JsVal) (p tp te : JsNum)
    (hnet : ∀ req : Request, req.url.path = "/api/employees" → net w.requests req = .ok res)
    (hok : res.ok = true) (htext : res.text ≠ "")
    (hjson : res.json = some (.obj fields))
    (hcontent : JsVal.lookup fields "content" = .arr content)
    (hnumber : JsVal.lookup fields "number" = .num p)
    (htotalPages : JsVal.lookup fields "totalPages" = .num tp)
    (htotal : JsVal.lookup fields "totalElements" = .num te)
    (hemp : ∀ e ∈ content, ∃ fs, e = .obj fs ∧
      ∀ k ∈ ["id", "fullName", "department", "email", "phone", "joinDate"],
        (JsVal.lookup fs k).stringable = true)
    (hp : p.val < 9007199254740992) (htp : 1 ≤ tp.val) :
    (∃ w1, loadEmployees net w = (.ok (), w1)) ∧
    (loadEmployees net w).2.emp_tbody.length = content.length ∧
    (loadEmployees net w).2.emp_tbody.map Row.html =
      content.map (fun e =>
        "\n\t    <td>" ++ (JsVal.nullish (e.prop "id") (.str "")).toStr ++
        "</td>\n\t    <td>" ++ esc (JsVal.nullish (e.prop "fullName") (.str "")) ++
        "</td>\n\t    <td>" ++ esc (JsVal.orElse (e.prop "department") (.str "")) ++
        "</td>\n\t    <td>" ++ esc (JsVal.orElse (e.prop "email") (.str "")) ++
        "</td>\n\t    <td>" ++ esc (JsVal.orElse (e.prop "phone") (.str "")) ++
        "</td>\n\t    <td>" ++ esc (JsVal.orElse (e.prop "joinDate") (.str "")) ++
        "</td>\n\t    <td>\n\t      <button class=\"btn\" data-act=\"edit\" data-id=\"" ++
        (e.prop "id").toStr ++
        "\">Edit</button>\n\t      <button class=\"btn danger\" data-act=\"del\" data-id=\"" ++
        (e.prop "id").toStr ++
        "\">Deactivate</button>\n\t      <button class=\"btn danger\" data-act=\"purge\" data-id=\"" ++
        (e.prop "id").toStr ++ "\" data-hr-only>Purge</button>\n\t    </td>\n\t  ") ∧
    (loadEmployees net w).2.emp_page =
      "Page " ++ toString (p.val + 1) ++ " of " ++ toString tp.val ++ " • Total " ++
        toString te.val := by
  have hdata : responseData res = .obj fields := by
    simp [responseData, htext, hjson]
  obtain ⟨rows, h1, h2, h3⟩ := appendRows_ok employeeRow Except.ok employeeRow content
    (fun e he => by
      obtain ⟨fs, rfl, hfs⟩ := hemp e he
      exact ⟨_, employeeRow_ok fs hfs, (employeeRow_ok fs hfs).symm⟩) []
  have hpath : (buildRequest (employeesUrl w) { method := some "GET" } w).url.path =
      "/api/employees" := (employeesUrl_page w).1
  have hind : pageIndicator (.obj fields) content =
      .ok ("Page " ++ toString (p.val + 1) ++ " of " ++ toString tp.val ++ " • Total " ++
        toString te.val) := by
    have htp0 : tp.val ≠ 0 := by omega
    simp [pageIndicator, JsVal.prop, hnumber, htotalPages, htotal, JsVal.stringable,
      JsVal.orElse, JsVal.nullish, JsVal.isNullish, JsVal.truthy, htp0, orZeroPlusOne,
      JsNum.succ, hp, JsVal.toStr]
  have hrun : loadEmployees net w =
      (.ok (), { w with
        requests := w.requests ++ [buildRequest (employeesUrl w) { method := some "GET" } w]
        emp_tbody := rows
        emp_page := "Page " ++ toString (p.val + 1) ++ " of " ++ toString tp.val ++
          " • Total " ++ toString te.val }) := by
    unfold loadEmployees
    rw [apiFetch_eq, apiFetch_ok net _ _ _ res (hnet _ hpath) hok, hdata]
    simp [JsVal.truthy, JsVal.prop, hcontent, h1, hind]
  rw [hrun]
  refine ⟨⟨_, rfl⟩, h2, ?_, rfl⟩
  refine map_of_map_ok employeeRow Row.html _ content rows h3 ?_
  intro e he r hr
  obtain ⟨fs, rfl, hfs⟩ := hemp e he
  rw [employeeRow_ok fs hfs] at hr
  injection hr with hr
  rw [← hr]

set_option maxRecDepth 100000 in
/-- Witness for C8: the page of one employee of the specification's example
gives one row and `Page 1 of 3 • Total 25`; a page of two employees gives their
two rows in the order of `content`. -/
theorem loadEmployees_renders_witness :
    ((loadEmployees netDashboard {}).2.emp_tbody.length = 1 ∧
      (loadEmployees netDashboard {}).2.emp_page = "Page 1 of 3 • Total 25") ∧
    ((loadEmployees netTwoEmployees {}).2.emp_tbody.length = 2 ∧
      (loadEmployees netTwoEmployees {}).2.emp_tbody.map Row.html =
        [ "\n\t    <td>1</td>\n\t    <td>A</td>\n\t    <td></td>\n\t    <td></td>\n\t    <td></td>\n\t    <td></td>\n\t    <td>\n\t      <button class=\"btn\" data-act=\"edit\" data-id=\"1\">Edit</button>\n\t      <button class=\"btn danger\" data-act=\"del\" data-id=\"1\">Deactivate</button>\n\t      <button class=\"btn danger\" data-act=\"purge\" data-id=\"1\" data-hr-only>Purge</button>\n\t    </td>\n\t  ",
          "\n\t    <td>2</td>\n\t    <td>B &amp; C</td>\n\t    <td></td>\n\t    <td></td>\n\t    <td></td>\n\t    <td></td>\n\t    <td>\n\t      <button class=\"btn\" data-act=\"edit\" data-id=\"2\">Edit</button>\n\t      <button class=\"btn danger\" data-act=\"del\" data-id=\"2\">Deactivate</button>\n\t      <button class=\"btn danger\" data-act=\"purge\" data-id=\"2\" data-hr-only>Purge</button>\n\t    </td>\n\t  " ] ∧
      (loadEmployees netTwoEmployees {}).2.emp_page = "Page 1 of 3 • Total 25") := by
  have h1 := loadEmployees_renders netDashboard {} responseOneEmployee _
    [.obj [("id", .num (.ofNat 1)), ("fullName", .str "A")]] (.ofNat 0) (.ofNat 3) (.ofNat 25)
    (fun req h => by simp [netDashboard, h]) rfl (by decide) rfl rfl rfl rfl rfl
    (by
      intro e he
      simp only [List.mem_singleton] at he
      exact ⟨_, he, by decide⟩)
    (by decide) (by decide)
  have h2 := loadEmployees_renders netTwoEmployees {} _ _
    [ .obj [("id", .num (.ofNat 1)), ("fullName", .str "A")],
      .obj [("id", .num (.ofNat 2)), ("fullName", .str "B & C")] ]
    (.ofNat 0) (.ofNat 3) (.ofNat 25)
    (fun _ _ => rfl) rfl (by decide) rfl rfl rfl rfl rfl
    (by
      intro e he
      simp only [List.mem_cons, List.mem_singleton, List.not_mem_nil, or_false] at he
      rcases he with he | he
      · exact ⟨_, he, by decide⟩
      · exact ⟨_, he, by decide⟩)
    (by decide) (by decide)
  exact ⟨⟨h1.2.1, h1.2.2.2⟩, h2.2.1, h2.2.2.1, h2.2.2.2⟩

/-- C6, the code at the failing input. For a signed-in user with role
`EMPLOYEE` (`canHR()` false) the bootstrap hides the HR-only element of the
static page, but the Purge button of the row rendered by the first load,
flagged `data-hr-only`, keeps an empty `style.display`; it stays so after a
reload by Search. -/
theorem boot_leaves_purge_visible :
    canHR dashboardEmployee = false ∧
    hrOnlyDisplays (boot netDashboard dashboardEmployee) = ["none", ""] ∧
    hrOnlyDisplays (click netDashboard .search (boot netDashboard dashboardEmployee)) =
      ["none", ""] := by
  refine ⟨rfl, rfl, rfl⟩

end Ems
